import Mathlib

/-!
Shallow embedding of the profile/mod persistence and dependency-resolution core
of src/src-tauri/src/state/profile_state.rs (js-launcher), together with proofs
about its registry operations, dependency resolver, path resolver, persistence
protocol and custom-mod toggle.

Modelling conventions:
* `Uuid` values are modelled as `String` for profile ids (the textual uuid is
  what the path code slices) and as `Nat` for mod ids (`Uuid::new_v4` becomes a
  fresh-counter draw); timestamps (`date_published`, `fileDate`) are `Nat`.
* The async mutex/rwlock discipline is not modelled: every operation is a pure
  state transformer, which matches the linearization the locks provide.
* `save_profiles` inside registry operations is modelled as copying the profile
  map into a `file` image and bumping a flush counter (its internal
  empty-collection guard is modelled separately for the save claim).
* External collaborators that live outside src/ (the Modrinth/CurseForge
  catalog clients, backup_utils, trash_utils, mc_utils, the filename sanitizer)
  are modelled as finite tables or black-box function parameters, following the
  external-interfaces section of the spec.
* Rust `HashMap<Uuid, Profile>` becomes an association list with
  first-match lookup/update semantics.
-/

set_option linter.unusedVariables false
set_option linter.unreachableTactic false
set_option linter.unusedTactic false

namespace JSL

/-- Mod loader kinds, from `enum ModLoader`. -/
inductive ModLoader where
  | vanilla
  | forge
  | fabric
  | quilt
  | neoForge
deriving DecidableEq, Repr

/-- `ModLoader::as_str`. -/
def ModLoader.asStr : ModLoader → String
  | .vanilla => "vanilla"
  | .forge => "forge"
  | .fabric => "fabric"
  | .quilt => "quilt"
  | .neoForge => "neoforge"

/-- `str::to_lowercase`, modelled as character-wise ASCII lowering on the
underlying character list (all strings the code lowers are ASCII; the
byte-level loop of `String.toLower` itself is opaque to the proof checker). -/
def strToLower (s : String) : String :=
  ⟨s.data.map Char.toLower⟩

/-- `ModLoader::from_str`: lowercase, then match; an unknown name is an error,
modelled as `none` (call sites use `.ok()`). -/
def ModLoader.fromStr (s : String) : Option ModLoader :=
  match strToLower s with
  | "vanilla" => some .vanilla
  | "forge" => some .forge
  | "fabric" => some .fabric
  | "quilt" => some .quilt
  | "neoforge" => some .neoForge
  | _ => none

/-- Tagged mod origin, from `enum ModSource`. The `Local` variant is named
`localFile` because `local` is reserved in Lean. CurseForge fingerprints
(`u64`) are `Nat`. -/
inductive ModSource where
  | localFile (file_name : String)
  | url (url : String) (file_name : Option String)
  | maven (coordinates : String) (repository_url : Option String)
  | embedded (name : String)
  | modrinth (project_id version_id file_name download_url : String)
      (file_hash_sha1 : Option String)
  | curseForge (project_id file_id file_name download_url : String)
      (file_hash_sha1 : Option String) (file_fingerprint : Option Nat)
deriving DecidableEq, Repr

/-- One installed mod record, from `struct Mod`. -/
structure Mod where
  id : Nat
  source : ModSource
  enabled : Bool
  display_name : Option String
  version : Option String
  game_versions : Option (List String)
  file_name_override : Option String
  associated_loader : Option ModLoader
  modpack_origin : Option String
  updates_enabled : Bool
deriving DecidableEq, Repr

/-- A profile record, from `struct Profile`. Fields that none of the modelled
operations read (timestamps, settings block, lifecycle state, pack selection,
banners, descriptions, provenance links) are omitted; every field the modelled
code branches on is present. -/
structure Profile where
  id : String
  name : String
  path : String
  game_version : String
  loader : ModLoader
  mods : List Mod
  group : Option String
  use_shared_minecraft_folder : Bool
  is_standard_version : Bool
deriving DecidableEq, Repr

/-- `ProfileManager::is_GEG_client_group`: note the source compares the
lowercased name against the mixed-case literals, exactly as written. -/
def isGEGClientGroup (groupName : String) : Bool :=
  let normalized := strToLower groupName
  normalized == "nrc" || normalized == "GEG" || normalized == "GEG client"

/-- `ProfileManager::is_isolated_group`. -/
def isIsolatedGroup (groupName : String) : Bool :=
  let normalized := strToLower groupName
  normalized == "server" || normalized == "modpacks"

/-- `Profile::should_use_shared_minecraft_folder`. -/
def Profile.shouldUseSharedMinecraftFolder (p : Profile) : Bool :=
  match p.group with
  | some group => if isIsolatedGroup group then false else p.use_shared_minecraft_folder
  | none => p.use_shared_minecraft_folder

/-- Typed failures from `AppError`, restricted to the variants the modelled
operations produce. -/
inductive AppError where
  | profileNotFound (id : String)
  | modNotFoundInProfile (profile_id : String) (mod_id : Nat)
  | modrinthPrimaryFileNotFound (version_id : String)
  | other (msg : String)
deriving DecidableEq, Repr

/- ### Path resolver -/

/-- A filesystem path as its list of segments; `PathBuf::join` is `++`. -/
abbrev FsPath := List String

/-- External context of the path resolver: `default_profile_path()` (launcher
config, outside src/), `mc_utils::is_legacy_minecraft_version` and the
`sanitize_filename` crate, all black boxes to this module. -/
structure PathEnv where
  profilesBase : FsPath
  isLegacyMinecraftVersion : String → Bool
  sanitizeFilename : String → String

/-- `ProfileManager::build_path_from_profile_path`: split the stored path
fragment on `/` and push each non-empty segment. -/
def buildPathFromProfilePath (env : PathEnv) (p : Profile) : FsPath :=
  env.profilesBase ++ ((p.path.splitOn "/").filter (fun segment => segment ≠ ""))

/-- `ProfileManager::sanitize_group_name`. -/
def sanitizeGroupName (env : PathEnv) (groupName : String) : String :=
  env.sanitizeFilename (strToLower groupName)

/-- `ProfileManager::calculate_group_directory`. -/
def calculateGroupDirectory (env : PathEnv) (p : Profile) : FsPath :=
  match p.group with
  | some group =>
    if isGEGClientGroup group then
      if env.isLegacyMinecraftVersion p.game_version then
        env.profilesBase ++ ["GEG", "legacy"]
      else
        env.profilesBase ++ ["GEG", "new"]
    else
      env.profilesBase ++ ["groups", sanitizeGroupName env group]
  | none => buildPathFromProfilePath env p

/-- `ProfileManager::calculate_instance_path_for_profile` (every arm of the
source returns `Ok`, so the model is total). -/
def calculateInstancePathForProfile (env : PathEnv) (p : Profile) : FsPath :=
  if p.shouldUseSharedMinecraftFolder then calculateGroupDirectory env p
  else buildPathFromProfilePath env p

/-- The uuid short form of `get_profile_mods_path_shared`: strip `-`
(`replace("-", "")` of a one-character pattern is the character filter), then
take the first two and last two characters (byte slicing in Rust; the uuid
text is ASCII, so character slicing on the underlying list is identical). -/
def uuidShort (idStr : String) : String :=
  let u := idStr.data.filter (fun c => c ≠ '-')
  if 4 ≤ u.length then
    String.mk (u.take 2 ++ u.drop (u.length - 2))
  else
    String.mk (u.take (min 4 u.length))

/-- `ProfileManager::get_profile_mods_path_single`. -/
def getProfileModsPathSingle (env : PathEnv) (p : Profile) : FsPath :=
  let instancePath := calculateInstancePathForProfile env p
  match p.loader with
  | .fabric => instancePath ++ ["mods", "nrc" ++ "-" ++ p.game_version ++ "-" ++ "fabric"]
  | _ => instancePath ++ ["mods"]

/-- `ProfileManager::get_profile_mods_path_shared`. Note that only the Fabric
arm appends the uuid-derived subdirectory. -/
def getProfileModsPathShared (env : PathEnv) (p : Profile) : FsPath :=
  let instancePath := calculateInstancePathForProfile env p
  let uuid_short := uuidShort p.id
  match p.loader with
  | .fabric => instancePath ++ ["mods", "nrc-" ++ p.game_version ++ "-fabric-" ++ uuid_short]
  | _ => instancePath ++ ["mods"]

/-- `ProfileManager::get_profile_mods_path`. -/
def getProfileModsPath (env : PathEnv) (p : Profile) : FsPath :=
  if p.is_standard_version || !p.shouldUseSharedMinecraftFolder then
    getProfileModsPathSingle env p
  else
    getProfileModsPathShared env p

/- ### In-memory registry state and the basic mod mutations -/

/-- Manager state threaded through registry operations: the profile map, a
fresh-id counter standing in for `Uuid::new_v4`, the persisted-file image and a
count of `save_profiles` flushes. -/
structure St where
  profiles : List (String × Profile)
  nextModId : Nat
  file : List (String × Profile)
  saves : Nat
deriving Repr

/-- `HashMap::get`, first-match association-list lookup. -/
def lookupProfile : List (String × Profile) → String → Option Profile
  | [], _ => none
  | (k, p) :: rest, id => if k = id then some p else lookupProfile rest id

/-- `HashMap::get_mut` followed by an in-place edit: rewrite the first entry
with the given key. -/
def adjustProfile : List (String × Profile) → String → (Profile → Profile) →
    List (String × Profile)
  | [], _, _ => []
  | (k, p) :: rest, id, f =>
    if k = id then (k, f p) :: rest else (k, p) :: adjustProfile rest id f

/-- `HashMap::remove`. -/
def removeProfile (ps : List (String × Profile)) (id : String) : List (String × Profile) :=
  ps.filter (fun kp => kp.1 ≠ id)

/-- `save_profiles` as seen from the registry operations: flush the collection
to the file image (the empty-collection recovery guard inside it is modelled
separately as `saveProfilesDisk`). -/
def doSave (st : St) : St :=
  { st with file := st.profiles, saves := st.saves + 1 }

/-- `ProfileManager::add_mod`. The state is returned alongside the outcome
because the Rust method mutates the shared map in place. -/
def addMod (st : St) (profile_id : String) (mod_info : Mod) : St × Except AppError Unit :=
  match lookupProfile st.profiles profile_id with
  | none => (st, .error (.profileNotFound profile_id))
  | some profile =>
    if !profile.mods.any (fun existing_mod => existing_mod.source == mod_info.source) then
      let st1 := { st with
        profiles := adjustProfile st.profiles profile_id
          (fun p => { p with mods := p.mods ++ [mod_info] }) }
      (doSave st1, .ok ())
    else
      (st, .error (.other ("Mod already exists in profile " ++ profile_id)))

/- ### Custom-mod toggle subsystem -/

/-- Outcome of `set_custom_mod_enabled` over a directory modelled as the list
of file names it contains: the resulting directory, how many renames were
performed, and the call's result. -/
structure ToggleOutcome where
  files : List String
  renames : Nat
  result : Except AppError Unit
deriving Repr

/-- A rename inside one directory: drop the source name, add the target name. -/
def renameFile (files : List String) (srcName dstName : String) : List String :=
  dstName :: files.filter (fun f => f ≠ srcName)

/-- `ProfileManager::set_custom_mod_enabled`. -/
def setCustomModEnabled (files : List String) (filename : String) (set_enabled : Bool) :
    ToggleOutcome :=
  if filename.endsWith ".disabled" then
    ⟨files, 0, .error (.other ("Invalid filename provided to set_custom_mod_enabled: " ++ filename))⟩
  else
    let disabled_filename := filename ++ ".disabled"
    let current_enabled := files.contains filename
    let currently_exists_as_disabled := files.contains disabled_filename
    if !current_enabled && !currently_exists_as_disabled then
      ⟨files, 0, .error (.other ("Custom mod file not found: " ++ filename))⟩
    else if current_enabled == set_enabled then
      ⟨files, 0, .ok ()⟩
    else if set_enabled then
      ⟨renameFile files disabled_filename filename, 1, .ok ()⟩
    else
      ⟨renameFile files filename disabled_filename, 1, .ok ()⟩

/- ### Persistent store: load -/

/-- What reading and parsing the backing file can yield: missing, an I/O error
on read, readable but unparsable JSON, or a parsed profile list. -/
inductive FileContent where
  | unreadable
  | corrupt
  | parses (profiles : List Profile)
deriving Repr

/-- Disk world of `load_profiles_internal`: the backing file, the most recent
labelled backup (`backup_utils::restore_from_backup` copies it over the backing
file; `none` means restoration fails), plus counters for corrupt-file copies
made aside and restoration attempts. The backup primitives live outside src/
and are the spec's black-box backup interface. -/
structure LoadWorld where
  file : Option FileContent
  backup : Option FileContent
  corruptCopies : Nat
  restoreAttempts : Nat
deriving Repr

/-- `backup_utils::restore_from_backup`: succeeds exactly when a backup exists,
in which case the backing file now holds the backup's content. -/
def restoreFromBackup (w : LoadWorld) : LoadWorld × Bool :=
  match w.backup with
  | some b => ({ w with file := some b, restoreAttempts := w.restoreAttempts + 1 }, true)
  | none => ({ w with restoreAttempts := w.restoreAttempts + 1 }, false)

/-- The retry loop of `load_profiles_internal` (max_attempts = 2,
attempt_count incremented at the top of each iteration). The loop needs at
most two iterations; the fuel argument only reflects that Rust's `loop` has no
structural bound, and the out-of-fuel arm is provably never reached from
`loadProfilesInternal`. -/
def loadLoop (w : LoadWorld) (attemptCount : Nat) :
    Nat → LoadWorld × Except AppError (List Profile)
  | 0 => (w, .error (.other "unreachable: retry budget analysis below"))
  | fuel + 1 =>
    let attempt := attemptCount + 1
    match w.file with
    | none =>
      if attempt = 1 then
        match restoreFromBackup w with
        | (w1, true) => loadLoop w1 attempt fuel
        | (w1, false) => (w1, .ok [])
      else (w, .ok [])
    | some .unreadable =>
      if attempt < 2 then
        match restoreFromBackup w with
        | (w1, true) => loadLoop w1 attempt fuel
        | (w1, false) => (w1, .ok [])
      else (w, .ok [])
    | some .corrupt =>
      if attempt < 2 then
        let w0 := { w with corruptCopies := w.corruptCopies + 1 }
        match restoreFromBackup w0 with
        | (w1, true) => loadLoop w1 attempt fuel
        | (w1, false) => (w1, .ok [])
      else (w, .ok [])
    | some (.parses ps) => (w, .ok ps)

/-- `ProfileManager::load_profiles_internal`. -/
def loadProfilesInternal (w : LoadWorld) : LoadWorld × Except AppError (List Profile) :=
  loadLoop w 0 2

/- ### Persistent store: save -/

/-- Disk world of `save_profiles`: the persisted file content, the labelled
backup set as `list_backups` reports it (most recent first), and an oracle for
whether `restore_from_backup` succeeds there. -/
structure SaveWorld where
  fileContent : Option (List Profile)
  backups : List (List Profile)
  restoreSucceeds : Bool
  restoreAttempts : Nat
deriving Repr

/-- Result of `save_profiles`: the new disk world, the call's outcome, and what
`safe_write_with_backup` wrote if it was reached at all. -/
structure SaveOutcome where
  world : SaveWorld
  result : Except AppError Unit
  wrote : Option (List Profile)
deriving Repr

/-- `safe_write_with_backup` (backup_utils, outside src/): snapshot the
previous file into the backup set and replace the file with the new bytes.
Rotation bounds and the minimum-interval rate limit are not modelled; no claim
touches them. -/
def writeOut (profiles : List Profile) (w : SaveWorld) : SaveOutcome :=
  { world := { w with
      fileContent := some profiles
      backups := match w.fileContent with
        | some old => old :: w.backups
        | none => w.backups }
    result := .ok ()
    wrote := some profiles }

/-- `ProfileManager::save_profiles` (disk-level view): the empty-collection
guard, then the safe write. `list_backups` is modelled as the pure read of the
backup set. -/
def saveProfilesDisk (profiles : List Profile) (w : SaveWorld) : SaveOutcome :=
  if profiles.isEmpty then
    if !w.backups.isEmpty then
      if w.restoreSucceeds then
        { world := { w with
            restoreAttempts := w.restoreAttempts + 1
            fileContent := w.backups.head? }
          result := .ok ()
          wrote := none }
      else
        writeOut profiles { w with restoreAttempts := w.restoreAttempts + 1 }
    else writeOut profiles w
  else writeOut profiles w

/- ### Profile deletion -/

/-- Filesystem world of `delete_profile`: the set of directories that exist and
the recoverable trash area (`trash_utils::move_path_to_trash`, outside src/,
modelled as a successful move into the trash list). -/
structure FsWorld where
  dirs : List FsPath
  trash : List FsPath
deriving Repr

/-- `ProfileManager::has_other_profile_with_same_path`. -/
def hasOtherProfileWithSamePath (ps : List (String × Profile)) (excludeId : String)
    (targetPath : FsPath) (pathCalculator : Profile → FsPath) : Bool :=
  ps.any (fun kp => kp.1 ≠ excludeId && pathCalculator kp.2 == targetPath)

/-- Move one directory to the trash area. The directory set is a set of
existing directories, so removal drops every occurrence. -/
def trashDir (fs : FsWorld) (path : FsPath) : FsWorld :=
  { dirs := fs.dirs.filter (fun d => d ≠ path), trash := path :: fs.trash }

/-- The main-directory phase of `delete_profile`: trash the instance directory
only when no other profile resolves to it and it exists. -/
def deleteMainDirPhase (env : PathEnv) (ps : List (String × Profile)) (id : String)
    (profile : Profile) (fs : FsWorld) : FsWorld :=
  let profile_dir_path := calculateInstancePathForProfile env profile
  if !hasOtherProfileWithSamePath ps id profile_dir_path (calculateInstancePathForProfile env)
  then
    if fs.dirs.contains profile_dir_path then trashDir fs profile_dir_path else fs
  else fs

/-- The legacy individual-directory phase of `delete_profile`: additionally
trash `build_path_from_profile_path` when it differs from the main path, is not
shared, and exists. -/
def deleteIndividualDirPhase (env : PathEnv) (ps : List (String × Profile)) (id : String)
    (profile : Profile) (fs : FsWorld) : FsWorld :=
  let profile_dir_path := calculateInstancePathForProfile env profile
  let individual_path := buildPathFromProfilePath env profile
  if individual_path ≠ profile_dir_path then
    if hasOtherProfileWithSamePath ps id individual_path (buildPathFromProfilePath env) then fs
    else if fs.dirs.contains individual_path then trashDir fs individual_path
    else fs
  else fs

/-- `ProfileManager::delete_profile`: both directory phases, then removal of
the registry entry and a flush. -/
def deleteProfile (env : PathEnv) (st : St) (fs : FsWorld) (id : String) :
    (St × FsWorld) × Except AppError Unit :=
  match lookupProfile st.profiles id with
  | none => ((st, fs), .error (.profileNotFound id))
  | some profile =>
    let fs1 := deleteMainDirPhase env st.profiles id profile fs
    let fs2 := deleteIndividualDirPhase env st.profiles id profile fs1
    let st1 := doSave { st with profiles := removeProfile st.profiles id }
    ((st1, fs2), .ok ())

/- ### Modrinth catalog model and dependency selection -/

/-- File hashes of a Modrinth version file (only sha1 is read). -/
structure ModrinthFileHashes where
  sha1 : Option String
deriving DecidableEq, Repr

/-- One downloadable file of a Modrinth version. -/
structure ModrinthFile where
  filename : String
  url : String
  hashes : ModrinthFileHashes
  primary : Bool
deriving DecidableEq, Repr

/-- `ModrinthDependencyType` (crate::integrations::modrinth, outside src/). -/
inductive ModrinthDependencyType where
  | required
  | optional
  | incompatible
  | embedded
deriving DecidableEq, Repr

/-- One declared dependency of a Modrinth version. -/
structure ModrinthDependency where
  project_id : Option String
  version_id : Option String
  dependency_type : ModrinthDependencyType
  file_name : Option String
deriving DecidableEq, Repr

/-- A Modrinth version record; `date_published` is an abstract timestamp whose
order mirrors the RFC3339 text the Rust code compares. -/
structure ModrinthVersion where
  id : String
  project_id : String
  name : String
  version_number : String
  date_published : Nat
  loaders : List String
  game_versions : List String
  dependencies : List ModrinthDependency
  files : List ModrinthFile
deriving DecidableEq, Repr

/-- The Modrinth catalog as a finite table of projects and their versions: the
spec's black-box `getVersions`/`getVersionDetails` interface. A project missing
from the table doubles as a fetch failure. -/
structure ModrinthRegistry where
  projects : List (String × List ModrinthVersion)
deriving Repr

/-- First-match lookup in the project table. -/
def lookupProject : List (String × List ModrinthVersion) → String →
    Option (List ModrinthVersion)
  | [], _ => none
  | (k, vs) :: rest, pid => if k = pid then some vs else lookupProject rest pid

/-- `modrinth::get_mod_versions(project, loaders?, game_versions?)`: the
catalog's versions of the project, server-side filtered by loader and by
supported game version when filters are given. -/
def getModVersions (reg : ModrinthRegistry) (pid : String)
    (loadersFilter : Option (List String)) (gameVersionsFilter : Option (List String)) :
    Option (List ModrinthVersion) :=
  match lookupProject reg.projects pid with
  | none => none
  | some vs =>
    let vs1 := match loadersFilter with
      | none => vs
      | some ls => vs.filter (fun v => ls.any (fun l => v.loaders.contains l))
    let vs2 := match gameVersionsFilter with
      | none => vs1
      | some gvs => vs1.filter (fun v => gvs.any (fun g => v.game_versions.contains g))
    some vs2

/-- `modrinth::get_version_details(version_id)`: find the version anywhere in
the catalog. -/
def getVersionDetails (reg : ModrinthRegistry) (vid : String) : Option ModrinthVersion :=
  (reg.projects.flatMap (fun pr => pr.2)).find? (fun v => v.id == vid)

/-- Tail of `Iterator::max_by_key` with a current maximum in hand: a later
element wins ties, as in Rust. -/
def maxByDateAux (b : ModrinthVersion) : List ModrinthVersion → ModrinthVersion
  | [] => b
  | v :: rest => maxByDateAux (if b.date_published ≤ v.date_published then v else b) rest

/-- `iter().max_by_key(|v| &v.date_published)`: none on an empty list. -/
def maxByDate : List ModrinthVersion → Option ModrinthVersion
  | [] => none
  | v :: rest => some (maxByDateAux v rest)

/-- The dependency-version selection of `add_modrinth_mod_internal` over the
loader-filtered list: (a) the exact requested version id when present,
else (b) the latest version supporting one of the target game versions,
else (c) the latest version in the list. -/
def selectDepVersion (dep_versions : List ModrinthVersion) (target_version_id : Option String)
    (target_game_versions : List String) : Option ModrinthVersion :=
  let fromRequestedId :=
    match target_version_id with
    | some tv => dep_versions.find? (fun v => v.id == tv)
    | none => none
  match fromRequestedId with
  | some v => some v
  | none =>
    match maxByDate (dep_versions.filter (fun dep_v =>
        target_game_versions.any (fun target_gv => dep_v.game_versions.contains target_gv))) with
    | some v => some v
    | none => maxByDate dep_versions

/-- The target game versions used for dependency filtering: the parent mod's
list when non-empty, else the profile's game version. -/
def effectiveTargetGameVersions (parent_game_versions : List String)
    (profile_game_version : String) : List String :=
  if !parent_game_versions.isEmpty then parent_game_versions
  else [profile_game_version]

/- ### The recursive Modrinth add -/

/-- The argument bundle of one `add_modrinth_mod_internal` call (besides the
profile id, the recursion flag and the visited set). -/
structure RecArgs where
  project_id : String
  version_id : String
  file_name : String
  download_url : String
  file_hash_sha1 : Option String
  mod_name : Option String
  version_number : Option String
  loaders : Option (List String)
  game_versions : Option (List String)
deriving DecidableEq, Repr

/-- The recursion arguments built from a selected dependency version and its
primary file. -/
def recArgsOfVersion (v : ModrinthVersion) (pf : ModrinthFile) : RecArgs :=
  { project_id := v.project_id
    version_id := v.id
    file_name := pf.filename
    download_url := pf.url
    file_hash_sha1 := pf.hashes.sha1
    mod_name := some v.name
    version_number := some v.version_number
    loaders := some v.loaders
    game_versions := some v.game_versions }

/-- The `ModSource::Modrinth` value constructed by the call. -/
def modrinthSourceOfArgs (a : RecArgs) : ModSource :=
  .modrinth a.project_id a.version_id a.file_name a.download_url a.file_hash_sha1

/-- The new `Mod` record pushed by the guarded insert. -/
def newModOfArgs (freshId : Nat) (a : RecArgs) : Mod :=
  { id := freshId
    source := modrinthSourceOfArgs a
    enabled := true
    display_name := match a.mod_name with
      | some n => some n
      | none => some a.file_name
    version := a.version_number
    game_versions := a.game_versions
    file_name_override := none
    associated_loader := a.loaders.bind (fun l => l.head?.bind (fun s => ModLoader.fromStr s))
    modpack_origin := none
    updates_enabled := true }

/-- One iteration of the required-dependency loop of
`add_modrinth_mod_internal`, up to the recursive call: the arguments for the
recursion, or none when the dependency is skipped (non-required kind, fetch
failure, no selectable version, no primary file or no ids at all). Fetch
failures are logged and skipped in the source; they never abort the loop. -/
def depRecArgs (reg : ModrinthRegistry) (profile_loader_str : String)
    (target_game_versions : List String) (dep : ModrinthDependency) : Option RecArgs :=
  if dep.dependency_type = .required then
    match dep.project_id with
    | some dep_project_id =>
      match getModVersions reg dep_project_id (some [profile_loader_str]) none with
      | none => none
      | some dep_versions =>
        match selectDepVersion dep_versions dep.version_id target_game_versions with
        | none => none
        | some selected_dep_version =>
          match selected_dep_version.files.find? (fun f => f.primary) with
          | none => none
          | some primary_file => some (recArgsOfVersion selected_dep_version primary_file)
    | none =>
      match dep.version_id with
      | some dep_version_id_only =>
        match getVersionDetails reg dep_version_id_only with
        | none => none
        | some dep_version_details =>
          match dep_version_details.files.find? (fun f => f.primary) with
          | none => none
          | some primary_file => some (recArgsOfVersion dep_version_details primary_file)
      | none => none
  else none

/-- All (project id, version id) keys of the catalog: the recursion can only
grow the visited set with keys from this finite list. -/
def regKeys (reg : ModrinthRegistry) : List (String × String) :=
  reg.projects.flatMap (fun pr => pr.2.map (fun v => (pr.1, v.id)))

/-- Count of catalog keys not yet visited: the termination measure. -/
def unvisitedCount (reg : ModrinthRegistry) (visited : List (String × String)) : Nat :=
  ((regKeys reg).filter (fun k => !(visited.contains k))).length

theorem filterLengthMono {α : Type} (l : List α) (p q : α → Bool)
    (h : ∀ a, p a = true → q a = true) :
    (l.filter p).length ≤ (l.filter q).length := by
  induction l with
  | nil => simp
  | cons x xs ih =>
    by_cases hp : p x = true
    · rw [List.filter_cons_of_pos hp, List.filter_cons_of_pos (h x hp)]
      simpa using ih
    · rw [List.filter_cons_of_neg hp]
      by_cases hq : q x = true
      · rw [List.filter_cons_of_pos hq]
        exact Nat.le_succ_of_le ih
      · rw [List.filter_cons_of_neg hq]
        exact ih

theorem filterLengthStrict {α : Type} (l : List α) (p q : α → Bool) (w : α)
    (h : ∀ a, p a = true → q a = true) (hw : w ∈ l) (hwq : q w = true) (hwp : p w = false) :
    (l.filter p).length < (l.filter q).length := by
  induction l with
  | nil => cases hw
  | cons x xs ih =>
    rcases List.mem_cons.1 hw with rfl | hmem
    · rw [List.filter_cons_of_neg (by simp [hwp]), List.filter_cons_of_pos hwq]
      exact Nat.lt_succ_of_le (filterLengthMono xs p q h)
    · by_cases hp : p x = true
      · rw [List.filter_cons_of_pos hp, List.filter_cons_of_pos (h x hp)]
        simpa using ih hmem
      · rw [List.filter_cons_of_neg hp]
        by_cases hq : q x = true
        · rw [List.filter_cons_of_pos hq]
          exact Nat.lt_succ_of_lt (ih hmem)
        · rw [List.filter_cons_of_neg hq]
          exact ih hmem

theorem lookupProject_mem {l : List (String × List ModrinthVersion)} {pid : String}
    {vs : List ModrinthVersion} (h : lookupProject l pid = some vs) : (pid, vs) ∈ l := by
  induction l with
  | nil => simp [lookupProject] at h
  | cons kv rest ih =>
    obtain ⟨k, p⟩ := kv
    by_cases hk : k = pid
    · subst hk
      simp only [lookupProject, if_true, eq_self_iff_true, if_pos, Option.some.injEq] at h
      subst h
      exact List.mem_cons_self _ _
    · simp only [lookupProject, if_neg hk] at h
      exact List.mem_cons_of_mem _ (ih h)

theorem key_mem_regKeys {reg : ModrinthRegistry} {pid : String}
    {vs : List ModrinthVersion} {v : ModrinthVersion}
    (hl : lookupProject reg.projects pid = some vs) (hv : v ∈ vs) :
    (pid, v.id) ∈ regKeys reg := by
  simp only [regKeys, List.mem_flatMap]
  exact ⟨(pid, vs), lookupProject_mem hl, List.mem_map.2 ⟨v, hv, rfl⟩⟩

theorem unvisited_insert_lt {reg : ModrinthRegistry} {visited : List (String × String)}
    {key : String × String} (hmem : key ∈ regKeys reg)
    (hnv : visited.contains key = false) :
    unvisitedCount reg (key :: visited) < unvisitedCount reg visited := by
  apply filterLengthStrict _ _ _ key
  · intro a ha
    simp only [Bool.not_eq_true', List.contains_cons] at ha ⊢
    simp only [Bool.or_eq_false_iff] at ha
    exact ha.2
  · exact hmem
  · simpa using hnv
  · simp [List.contains_cons]

theorem getModVersions_unfiltered {reg : ModrinthRegistry} {pid : String}
    {vs : List ModrinthVersion} (h : getModVersions reg pid none none = some vs) :
    lookupProject reg.projects pid = some vs := by
  unfold getModVersions at h
  cases hl : lookupProject reg.projects pid with
  | none => rw [hl] at h; cases h
  | some vs0 => rw [hl] at h; simpa using h

mutual

/-- `ProfileManager::add_modrinth_mod_internal`: the recursive dependency
installer. Returns the mutated state together with the call's outcome; a
failed recursive branch leaves its partial mutations in place and the loop
continues, exactly as the shared-state Rust code does. `get_profile` (used to
re-read the loader and game version before the dependency walk) is modelled as
the plain map lookup; its standard-versions fallback lives outside this module
and is unreachable here because the profile was found by the insert step. -/
def addModrinthModInternal (reg : ModrinthRegistry) (st : St) (profile_id : String)
    (a : RecArgs) (add_dependencies : Bool) (visited_mods : List (String × String)) :
    St × Except AppError Unit :=
  if hv : (visited_mods.contains (a.project_id, a.version_id)) = true then
    (st, .ok ())
  else
    let visited' := (a.project_id, a.version_id) :: visited_mods
    match lookupProfile st.profiles profile_id with
    | none => (st, .error (.profileNotFound profile_id))
    | some profile =>
      let source := modrinthSourceOfArgs a
      let st1 :=
        if !profile.mods.any (fun m => m.source == source) then
          doSave { st with
            profiles := adjustProfile st.profiles profile_id
              (fun p => { p with mods := p.mods ++ [newModOfArgs st.nextModId a] })
            nextModId := st.nextModId + 1 }
        else st
      if add_dependencies then
        match lookupProfile st1.profiles profile_id with
        | none => (st1, .error (.profileNotFound profile_id))
        | some profile_details =>
          match hgv : getModVersions reg a.project_id none none with
          | none => (st1, .ok ())
          | some versions =>
            match hfind : versions.find? (fun v => v.id == a.version_id) with
            | none => (st1, .ok ())
            | some version_info =>
              processDeps reg st1 profile_id profile_details.loader.asStr
                (effectiveTargetGameVersions version_info.game_versions
                  profile_details.game_version)
                version_info.dependencies visited'
      else (st1, .ok ())
termination_by (unvisitedCount reg visited_mods, 0, 0)
decreasing_by
  have hl := getModVersions_unfiltered hgv
  have hmem := List.mem_of_find?_eq_some hfind
  have hid : version_info.id = a.version_id := by
    have := List.find?_some hfind
    simpa using this
  have hkey : (a.project_id, a.version_id) ∈ regKeys reg := by
    have := key_mem_regKeys hl hmem
    rwa [hid] at this
  exact Prod.Lex.left _ _ (unvisited_insert_lt hkey (by simpa using hv))

/-- The `for dependency in version_info.dependencies` loop of
`add_modrinth_mod_internal`: required dependencies are resolved through
`depRecArgs` and installed recursively with the extended visited set; a failed
or skipped dependency never aborts the loop, whose own result is `Ok`. -/
def processDeps (reg : ModrinthRegistry) (st : St) (profile_id : String)
    (profile_loader_str : String) (target_game_versions : List String)
    (deps : List ModrinthDependency) (visited : List (String × String)) :
    St × Except AppError Unit :=
  match deps with
  | [] => (st, .ok ())
  | dep :: rest =>
    match depRecArgs reg profile_loader_str target_game_versions dep with
    | none => processDeps reg st profile_id profile_loader_str target_game_versions rest visited
    | some args =>
      let r := addModrinthModInternal reg st profile_id args true visited
      processDeps reg r.1 profile_id profile_loader_str target_game_versions rest visited
termination_by (unvisitedCount reg visited, 1, deps.length)
decreasing_by
  · exact Prod.Lex.right _ (Prod.Lex.right _ (Nat.lt_succ_self _))
  · exact Prod.Lex.right _ (Prod.Lex.left _ _ (Nat.zero_lt_one))
  · exact Prod.Lex.right _ (Prod.Lex.right _ (Nat.lt_succ_self _))

end

/-- `ProfileManager::add_modrinth_mod`: the public wrapper, starting from an
empty visited set. -/
def addModrinthMod (reg : ModrinthRegistry) (st : St) (profile_id : String) (a : RecArgs)
    (add_dependencies : Bool) : St × Except AppError Unit :=
  addModrinthModInternal reg st profile_id a add_dependencies []

/- ### Version-switch updates -/

/-- Rewrite the first mod whose id matches, as the Rust
`position` + indexed in-place edit does. -/
def updateFirstModById : List Mod → Nat → (Mod → Mod) → List Mod
  | [], _, _ => []
  | m :: rest, mod_id, f =>
    if m.id = mod_id then f m :: rest else m :: updateFirstModById rest mod_id f

/-- The Modrinth project ids already present on the profile's mod list (a
`HashSet` in Rust; only membership is consulted). -/
def existingModrinthProjectIds (mods : List Mod) : List String :=
  mods.filterMap (fun m => match m.source with
    | .modrinth project_id _ _ _ _ => some project_id
    | _ => none)

/-- The required dependencies of the new version whose project is not yet
installed, paired with the version the dependency pins (if any). -/
def modrinthMissingDeps (existing_project_ids : List String)
    (deps : List ModrinthDependency) : List (String × Option String) :=
  deps.filterMap (fun dependency =>
    if dependency.dependency_type = .required then
      match dependency.project_id with
      | some dep_project_id =>
        if existing_project_ids.contains dep_project_id then none
        else some (dep_project_id, dependency.version_id)
      | none => none
    else none)

/-- The post-save missing-dependency loop of
`update_profile_modrinth_mod_version`: for each missing project, try the
pinned version's details first; if its primary file is found, add it without
recursion; otherwise search loader- and game-version-filtered versions and add
the latest. Failures of the adds are logged and skipped; only the profile
re-read can propagate an error. -/
def installMissingModrinthDepStep (reg : ModrinthRegistry) (st : St) (profile_id : String)
    (dep_project_id : String) (dep_version_id_opt : Option String) :
    St × Except AppError Unit :=
  match lookupProfile st.profiles profile_id with
  | none => (st, .error (.profileNotFound profile_id))
  | some profile =>
    let specific : Option St :=
      match dep_version_id_opt with
      | some version_id =>
        match getVersionDetails reg version_id with
        | some dep_version =>
          match dep_version.files.find? (fun f => f.primary) with
          | some primary_file =>
            some (addModrinthMod reg st profile_id
              (recArgsOfVersion dep_version primary_file) false).1
          | none => none
        | none => none
      | none => none
    match specific with
    | some st' => (st', .ok ())
    | none =>
      let st1 :=
        match getModVersions reg dep_project_id (some [profile.loader.asStr])
            (some [profile.game_version]) with
        | none => st
        | some versions =>
          match maxByDate versions with
          | none => st
          | some best_version =>
            match best_version.files.find? (fun f => f.primary) with
            | none => st
            | some primary_file =>
              (addModrinthMod reg st profile_id
                (recArgsOfVersion best_version primary_file) false).1
      (st1, .ok ())

def installMissingModrinthDeps (reg : ModrinthRegistry) (st : St) (profile_id : String) :
    List (String × Option String) → St × Except AppError Unit
  | [] => (st, .ok ())
  | (dep_project_id, dep_version_id_opt) :: rest =>
    match installMissingModrinthDepStep reg st profile_id dep_project_id dep_version_id_opt with
    | (st', .ok ()) => installMissingModrinthDeps reg st' profile_id rest
    | (st', .error e) => (st', .error e)

/-- `ProfileManager::update_profile_modrinth_mod_version`. -/
def updateProfileModrinthModVersion (reg : ModrinthRegistry) (st : St) (profile_id : String)
    (mod_id : Nat) (new_version_details : ModrinthVersion) : St × Except AppError Unit :=
  match lookupProfile st.profiles profile_id with
  | none => (st, .error (.profileNotFound profile_id))
  | some profile =>
    let missing_deps := modrinthMissingDeps (existingModrinthProjectIds profile.mods)
      new_version_details.dependencies
    match profile.mods.find? (fun m => m.id == mod_id) with
    | none => (st, .error (.modNotFoundInProfile profile_id mod_id))
    | some mod_to_update =>
      match mod_to_update.source with
      | .modrinth old_project_id _ _ _ _ =>
        if old_project_id ≠ new_version_details.project_id then
          (st, .error (.other ("Project ID mismatch for mod " ++ toString mod_id)))
        else
          match new_version_details.files.find? (fun f => f.primary) with
          | none => (st, .error (.modrinthPrimaryFileNotFound new_version_details.id))
          | some primary_file =>
            let st1 := { st with
              profiles := adjustProfile st.profiles profile_id (fun p =>
                { p with mods := updateFirstModById p.mods mod_id (fun m =>
                    { m with
                      source := .modrinth new_version_details.project_id
                        new_version_details.id primary_file.filename primary_file.url
                        primary_file.hashes.sha1
                      version := some new_version_details.version_number
                      game_versions := some new_version_details.game_versions
                      associated_loader := new_version_details.loaders.head?.bind
                        (fun s => ModLoader.fromStr s) }) }) }
            installMissingModrinthDeps reg (doSave st1) profile_id missing_deps
      | _ => (st, .error (.other ("Mod " ++ toString mod_id ++ " is not a Modrinth mod")))

/- ### CurseForge model and its version switch -/

/-- One hash entry of a CurseForge file (`algo` 1 is SHA1). -/
structure CurseForgeHash where
  algo : Nat
  value : String
deriving DecidableEq, Repr

/-- One declared dependency of a CurseForge file. -/
structure CurseForgeFileDependency where
  modId : Nat
  relationType : Nat
deriving DecidableEq, Repr

/-- A CurseForge file record (crate::integrations::curseforge, outside src/);
`fileDate` is an abstract timestamp like `date_published`. -/
structure CurseForgeFile where
  id : Nat
  modId : Nat
  displayName : String
  fileName : String
  downloadUrl : String
  fileDate : Nat
  hashes : List CurseForgeHash
  fileFingerprint : Nat
  gameVersions : List String
  dependencies : List CurseForgeFileDependency
deriving DecidableEq, Repr

/-- Modelled from the spec: `CurseForgeFileRelationType::from_u32` composed
with `should_install` (crate::integrations::curseforge, not under src/). The
spec keeps only the required relation kind — "filtering to only the 'required'
relation kind (optional/incompatible/embedded kinds are ignored)" — and the
CurseForge API encodes RequiredDependency as relation type 3; unknown codes
parse to `None` and are skipped. -/
def curseForgeShouldInstall (relationType : Nat) : Bool :=
  relationType == 3

/-- External CurseForge catalog and the unified-mod helpers
(crate::integrations, outside src/), as black-box functions: `get_mod_info`
(only the name is read), `get_mod_files` keyed by mod id and the game-version
filter the call passes, `get_file_details`, and
`extract_loaders_from_game_versions`. -/
structure CurseForgeEnv where
  getModInfo : Nat → Option String
  getModFiles : Nat → String → Option (List CurseForgeFile)
  getFileDetails : Nat → Nat → Option CurseForgeFile
  extractLoaders : List String → List String

/-- `iter().max_by_key(|f| f.fileDate.clone())` over CurseForge files. -/
def maxByFileDateAux (b : CurseForgeFile) : List CurseForgeFile → CurseForgeFile
  | [] => b
  | f :: rest => maxByFileDateAux (if b.fileDate ≤ f.fileDate then f else b) rest

/-- Rust `max_by_key` on `fileDate`: none on an empty list, later ties win. -/
def maxByFileDate : List CurseForgeFile → Option CurseForgeFile
  | [] => none
  | f :: rest => some (maxByFileDateAux f rest)

/-- The CurseForge project ids already on the mod list. -/
def existingCurseForgeProjectIds (mods : List Mod) : List String :=
  mods.filterMap (fun m => match m.source with
    | .curseForge project_id _ _ _ _ _ => some project_id
    | _ => none)

/-- The should-install dependencies of the new CurseForge file whose project is
not yet installed. -/
def curseForgeMissingDeps (existing_project_ids : List String)
    (deps : List CurseForgeFileDependency) : List Nat :=
  deps.filterMap (fun dependency =>
    if curseForgeShouldInstall dependency.relationType then
      if existing_project_ids.contains (toString dependency.modId) then none
      else some dependency.modId
    else none)

/- ### Payload-based add and its dependency installers -/

/-- `ModPlatform` (crate::integrations::unified_mod). -/
inductive ModPlatform where
  | modrinth
  | curseForge
deriving DecidableEq, Repr

/-- `InstallContentPayload` (crate::commands::content_command): the fields the
modelled code reads (`content_type` is never consulted here). For CurseForge
the `version_id` field carries the file id. -/
structure InstallContentPayload where
  profile_id : String
  project_id : String
  version_id : String
  file_name : String
  download_url : String
  file_hash_sha1 : Option String
  file_fingerprint : Option Nat
  content_name : Option String
  version_number : Option String
  loaders : Option (List String)
  game_versions : Option (List String)
  source : ModPlatform
deriving DecidableEq, Repr

/-- The `ModSource` value `add_mod_from_payload` constructs. -/
def payloadSource (payload : InstallContentPayload) : ModSource :=
  match payload.source with
  | .modrinth => .modrinth payload.project_id payload.version_id payload.file_name
      payload.download_url payload.file_hash_sha1
  | .curseForge => .curseForge payload.project_id payload.version_id payload.file_name
      payload.download_url payload.file_hash_sha1 payload.file_fingerprint

/-- The `Mod` record `add_mod_from_payload` pushes. -/
def newModOfPayload (freshId : Nat) (payload : InstallContentPayload) : Mod :=
  { id := freshId
    source := payloadSource payload
    enabled := true
    display_name := payload.content_name
    version := payload.version_number
    game_versions := payload.game_versions
    file_name_override := none
    associated_loader := payload.loaders.bind
      (fun l => l.head?.bind (fun s => ModLoader.fromStr s))
    modpack_origin := none
    updates_enabled := true }

/-- The map-mutating core of `ProfileManager::add_mod_from_payload` (its body
before the dependency step): missing profile is an error, an existing equal
source skips the insert without error, a fresh source is pushed and flushed. -/
def addModFromPayloadCore (st : St) (payload : InstallContentPayload) :
    St × Except AppError Unit :=
  match lookupProfile st.profiles payload.profile_id with
  | none => (st, .error (.profileNotFound payload.profile_id))
  | some profile =>
    let source := payloadSource payload
    if !profile.mods.any (fun m => m.source == source) then
      let st1 := { st with
        profiles := adjustProfile st.profiles payload.profile_id
          (fun p => { p with mods := p.mods ++ [newModOfPayload st.nextModId payload] })
        nextModId := st.nextModId + 1 }
      (doSave st1, .ok ())
    else
      (st, .ok ())

/-- `ProfileManager::install_modrinth_dependencies` (the payload path): for
each required dependency with a project id, fetch loader- and
game-version-filtered versions, take the latest, and add its primary file as a
payload without further recursion; every failure is logged and skipped. -/
def installModrinthDependenciesPayload (reg : ModrinthRegistry) (st : St)
    (profile_id : String) (version : ModrinthVersion) : St × Except AppError Unit :=
  match lookupProfile st.profiles profile_id with
  | none => (st, .error (.profileNotFound profile_id))
  | some profile =>
    let st' := version.dependencies.foldl (fun acc dependency =>
      if dependency.dependency_type = .required then
        match dependency.project_id with
        | some dep_project_id =>
          match getModVersions reg dep_project_id (some [profile.loader.asStr])
              (some [profile.game_version]) with
          | none => acc
          | some dep_versions =>
            match maxByDate dep_versions with
            | none => acc
            | some best_version =>
              match best_version.files.find? (fun f => f.primary) with
              | none => acc
              | some primary_file =>
                (addModFromPayloadCore acc
                  { profile_id := profile_id
                    project_id := dep_project_id
                    version_id := best_version.id
                    file_name := primary_file.filename
                    download_url := primary_file.url
                    file_hash_sha1 := primary_file.hashes.sha1
                    file_fingerprint := none
                    content_name := some best_version.name
                    version_number := some best_version.version_number
                    loaders := some best_version.loaders
                    game_versions := some best_version.game_versions
                    source := .modrinth }).1
        | none => acc
      else acc) st
    (st', .ok ())

/-- `ProfileManager::install_curseforge_dependencies`: for each should-install
dependency, look the mod up, take the newest game-version-compatible file,
check loader compatibility through the extracted loader list (vanilla accepts
everything), and add it as a payload without further recursion; every failure
is logged and skipped. -/
def installCurseforgeDependencies (cf : CurseForgeEnv) (st : St) (profile_id : String)
    (file : CurseForgeFile) : St × Except AppError Unit :=
  match lookupProfile st.profiles profile_id with
  | none => (st, .error (.profileNotFound profile_id))
  | some profile =>
    let profile_loader_str := profile.loader.asStr
    let st' := file.dependencies.foldl (fun acc dependency =>
      if curseForgeShouldInstall dependency.relationType then
        match cf.getModInfo dependency.modId with
        | none => acc
        | some _dep_mod_name =>
          match cf.getModFiles dependency.modId profile.game_version with
          | none => acc
          | some dep_files =>
            match maxByFileDate dep_files with
            | none => acc
            | some best_file =>
              let file_loaders := cf.extractLoaders best_file.gameVersions
              let is_compatible :=
                if profile_loader_str = "vanilla" then true
                else file_loaders.contains profile_loader_str
              if is_compatible then
                (addModFromPayloadCore acc
                  { profile_id := profile_id
                    project_id := toString dependency.modId
                    version_id := toString best_file.id
                    file_name := best_file.fileName
                    download_url := best_file.downloadUrl
                    file_hash_sha1 := (best_file.hashes.find?
                      (fun h => h.algo == 1)).map (fun h => h.value)
                    file_fingerprint := some best_file.fileFingerprint
                    content_name := some best_file.displayName
                    version_number := some best_file.fileName
                    loaders := some file_loaders
                    game_versions := some best_file.gameVersions
                    source := .curseForge }).1
              else acc
      else acc) st
    (st', .ok ())

/-- The unified versions endpoint (crate::integrations::unified_mod, outside
src/) as a black box: for a platform and project it may return the ids of a
page of versions; only membership of the requested version id is consulted. -/
structure UnifiedEnv where
  versionIds : ModPlatform → String → Option (List String)

/-- `ProfileManager::install_dependencies_for_mod`: look the requested version
up through the unified endpoint, then delegate to the platform-specific
dependency installer; fetch failures fall back to `Ok`. -/
def installDependenciesForMod (uni : UnifiedEnv) (reg : ModrinthRegistry)
    (cf : CurseForgeEnv) (st : St) (payload : InstallContentPayload) :
    St × Except AppError Unit :=
  match uni.versionIds payload.source payload.project_id with
  | none => (st, .ok ())
  | some ids =>
    if ids.contains payload.version_id then
      match payload.source with
      | .modrinth =>
        match getVersionDetails reg payload.version_id with
        | some full_version =>
          installModrinthDependenciesPayload reg st payload.profile_id full_version
        | none => (st, .ok ())
      | .curseForge =>
        match cf.getFileDetails ((payload.project_id.toNat?).getD 0)
            ((payload.version_id.toNat?).getD 0) with
        | some curseforge_file =>
          installCurseforgeDependencies cf st payload.profile_id curseforge_file
        | none => (st, .ok ())
    else (st, .ok ())

/-- `ProfileManager::add_mod_from_payload`: the core insert, then the
dependency step when requested; an error from either is surfaced. -/
def addModFromPayload (uni : UnifiedEnv) (reg : ModrinthRegistry) (cf : CurseForgeEnv)
    (st : St) (payload : InstallContentPayload) (add_dependencies : Bool) :
    St × Except AppError Unit :=
  match addModFromPayloadCore st payload with
  | (st1, .error e) => (st1, .error e)
  | (st1, .ok ()) =>
    if add_dependencies then
      installDependenciesForMod uni reg cf st1 payload
    else (st1, .ok ())

/-- `ProfileManager::update_profile_curseforge_mod_version`. -/
def updateProfileCurseforgeModVersion (cf : CurseForgeEnv) (st : St) (profile_id : String)
    (mod_id : Nat) (new_version_details : CurseForgeFile) : St × Except AppError Unit :=
  match lookupProfile st.profiles profile_id with
  | none => (st, .error (.profileNotFound profile_id))
  | some profile =>
    let missing_deps := curseForgeMissingDeps (existingCurseForgeProjectIds profile.mods)
      new_version_details.dependencies
    match profile.mods.find? (fun m => m.id == mod_id) with
    | none => (st, .error (.modNotFoundInProfile profile_id mod_id))
    | some mod_to_update =>
      match mod_to_update.source with
      | .curseForge old_project_id _ _ _ _ _ =>
        if old_project_id ≠ toString new_version_details.modId then
          (st, .error (.other ("Project ID mismatch for CurseForge mod " ++ toString mod_id)))
        else
          let st1 := { st with
            profiles := adjustProfile st.profiles profile_id (fun p =>
              { p with mods := updateFirstModById p.mods mod_id (fun m =>
                  { m with
                    source := .curseForge (toString new_version_details.modId)
                      (toString new_version_details.id) new_version_details.fileName
                      new_version_details.downloadUrl
                      ((new_version_details.hashes.find?
                        (fun h => h.algo == 1)).map (fun h => h.value))
                      (some new_version_details.fileFingerprint)
                    version := some new_version_details.displayName
                    game_versions := some new_version_details.gameVersions
                    associated_loader :=
                      match m.associated_loader with
                      | some l => some l
                      | none => (cf.extractLoaders new_version_details.gameVersions).head?.bind
                          (fun s => ModLoader.fromStr s) }) }) }
          let st2 := doSave st1
          if !missing_deps.isEmpty then
            ((installCurseforgeDependencies cf st2 profile_id new_version_details).1, .ok ())
          else (st2, .ok ())
      | _ => (st, .error (.other ("Mod " ++ toString mod_id ++ " is not a CurseForge mod")))

/- ### The source-dedup invariant and its preservation -/

/-- No two mod records of one list share an identical `ModSource` value. -/
def noDupSources (mods : List Mod) : Prop :=
  List.Pairwise (fun m1 m2 => m1.source ≠ m2.source) mods

instance (mods : List Mod) : Decidable (noDupSources mods) := by
  unfold noDupSources
  infer_instance

/-- The registry-wide invariant: every profile's mod list is source-deduped. -/
def ProfilesInvariant (st : St) : Prop :=
  ∀ kp ∈ st.profiles, noDupSources kp.2.mods

instance (st : St) : Decidable (ProfilesInvariant st) := by
  unfold ProfilesInvariant
  infer_instance

theorem any_source_eq_false {mods : List Mod} {s : ModSource}
    (h : mods.any (fun m => m.source == s) = false) : ∀ m ∈ mods, m.source ≠ s := by
  intro m hm
  have := List.any_eq_false.1 h m hm
  simpa using this

theorem noDupSources_push {mods : List Mod} {newMod : Mod}
    (h : noDupSources mods) (hnew : ∀ m ∈ mods, m.source ≠ newMod.source) :
    noDupSources (mods ++ [newMod]) := by
  unfold noDupSources at h ⊢
  rw [List.pairwise_append]
  refine ⟨h, List.pairwise_singleton _ _, ?_⟩
  intro a ha b hb
  simp only [List.mem_singleton] at hb
  subst hb
  exact hnew a ha

theorem lookupProfile_adjust_inv {ps : List (String × Profile)} {id : String}
    {f : Profile → Profile}
    (hInv : ∀ kp ∈ ps, noDupSources kp.2.mods)
    (hf : ∀ p, lookupProfile ps id = some p → noDupSources (f p).mods) :
    ∀ kp ∈ adjustProfile ps id f, noDupSources kp.2.mods := by
  induction ps with
  | nil => intro kp hkp; simp [adjustProfile] at hkp
  | cons head rest ih =>
    obtain ⟨k, p⟩ := head
    by_cases hk : k = id
    · subst hk
      intro kp hkp
      simp only [adjustProfile, if_pos rfl] at hkp
      rcases List.mem_cons.1 hkp with rfl | hmem
      · exact hf p (by simp [lookupProfile])
      · exact hInv kp (List.mem_cons_of_mem _ hmem)
    · intro kp hkp
      simp only [adjustProfile, if_neg hk] at hkp
      rcases List.mem_cons.1 hkp with rfl | hmem
      · exact hInv (k, p) (List.mem_cons_self _ _)
      · refine ih (fun kp2 h2 => hInv kp2 (List.mem_cons_of_mem _ h2)) ?_ kp hmem
        intro q hq
        apply hf
        simpa [lookupProfile, hk] using hq

theorem lookupProfile_entry_mem {ps : List (String × Profile)} {id : String} {p : Profile}
    (h : lookupProfile ps id = some p) : (id, p) ∈ ps := by
  induction ps with
  | nil => simp [lookupProfile] at h
  | cons head rest ih =>
    obtain ⟨k, q⟩ := head
    by_cases hk : k = id
    · subst hk
      simp only [lookupProfile, if_true, eq_self_iff_true, if_pos, Option.some.injEq] at h
      subst h
      exact List.mem_cons_self _ _
    · simp only [lookupProfile, if_neg hk] at h
      exact List.mem_cons_of_mem _ (ih h)

/-- The guarded push of a fresh source preserves the invariant (stated over the
profile list so that it applies whatever else the surrounding state does). -/
theorem inv_guarded_push {ps : List (String × Profile)} {profile_id : String}
    {profile : Profile} {newMod : Mod}
    (hInv : ∀ kp ∈ ps, noDupSources kp.2.mods)
    (hlk : lookupProfile ps profile_id = some profile)
    (hany : profile.mods.any (fun m => m.source == newMod.source) = false) :
    ∀ kp ∈ adjustProfile ps profile_id (fun p => { p with mods := p.mods ++ [newMod] }),
      noDupSources kp.2.mods := by
  have hnd : noDupSources profile.mods := hInv (profile_id, profile) (lookupProfile_entry_mem hlk)
  intro kp hkp
  refine lookupProfile_adjust_inv hInv ?_ kp hkp
  intro q hq
  rw [hlk] at hq
  cases hq
  exact noDupSources_push hnd (any_source_eq_false hany)

/-- The insert step of `add_modrinth_mod_internal` (guard, push, save)
preserves the invariant. -/
theorem inv_insert_step {st : St} {profile_id : String} {profile : Profile} {a : RecArgs}
    (hInv : ProfilesInvariant st)
    (hlk : lookupProfile st.profiles profile_id = some profile) :
    ProfilesInvariant
      (if !profile.mods.any (fun m => m.source == modrinthSourceOfArgs a) then
        doSave { st with
          profiles := adjustProfile st.profiles profile_id
            (fun p => { p with mods := p.mods ++ [newModOfArgs st.nextModId a] })
          nextModId := st.nextModId + 1 }
      else st) := by
  split
  next h =>
    intro kp hkp
    exact inv_guarded_push hInv hlk (by simpa using h) kp hkp
  next => exact hInv

/-- Joint invariant preservation for the recursive installer and its
dependency loop, by strong induction on the number of unvisited catalog
keys. -/
theorem addM_processDeps_inv (reg : ModrinthRegistry) :
    ∀ n : Nat, ∀ visited : List (String × String), unvisitedCount reg visited ≤ n →
      (∀ st profile_id a ad, ProfilesInvariant st →
        ProfilesInvariant (addModrinthModInternal reg st profile_id a ad visited).1) ∧
      (∀ st profile_id ls tgvs deps, ProfilesInvariant st →
        ProfilesInvariant (processDeps reg st profile_id ls tgvs deps visited).1) := by
  intro n
  induction n using Nat.strong_induction_on with
  | _ n ih =>
  intro visited hle
  have hA : ∀ st profile_id a ad, ProfilesInvariant st →
      ProfilesInvariant (addModrinthModInternal reg st profile_id a ad visited).1 := by
    intro st profile_id a ad hInv
    rw [addModrinthModInternal.eq_def]
    split
    · exact hInv
    next hv =>
      split
      · exact hInv
      next profile hlk =>
        dsimp only
        have hInv1 := inv_insert_step (a := a) hInv hlk
        split
        · split
          · exact hInv1
          next profile_details hlk1 =>
            split
            · exact hInv1
            next versions hgv =>
              split
              · exact hInv1
              next version_info hfind =>
                have hl := getModVersions_unfiltered hgv
                have hmem := List.mem_of_find?_eq_some hfind
                have hid : version_info.id = a.version_id := by
                  have := List.find?_some hfind
                  simpa using this
                have hkey : (a.project_id, a.version_id) ∈ regKeys reg := by
                  have := key_mem_regKeys hl hmem
                  rwa [hid] at this
                have hlt : unvisitedCount reg ((a.project_id, a.version_id) :: visited)
                    < unvisitedCount reg visited :=
                  unvisited_insert_lt hkey (by simpa using hv)
                have hsmall : unvisitedCount reg ((a.project_id, a.version_id) :: visited) < n := by
                  omega
                exact (ih _ hsmall _ (Nat.le_refl _)).2 _ _ _ _ _ hInv1
        · exact hInv1
  refine ⟨hA, ?_⟩
  intro st profile_id ls tgvs deps
  induction deps generalizing st with
  | nil =>
    intro hInv
    rw [processDeps.eq_def]
    exact hInv
  | cons dep rest ihdeps =>
    intro hInv
    rw [processDeps.eq_def]
    dsimp only
    split
    · exact ihdeps _ hInv
    · exact ihdeps _ (hA _ _ _ _ hInv)

/-- `add_mod` preserves the invariant. -/
theorem inv_addMod {st : St} {profile_id : String} {mod_info : Mod}
    (hInv : ProfilesInvariant st) : ProfilesInvariant (addMod st profile_id mod_info).1 := by
  unfold addMod
  split
  · exact hInv
  next profile hlk =>
    split
    next hany =>
      intro kp hkp
      exact inv_guarded_push hInv hlk (by simpa using hany) kp hkp
    next => exact hInv

/-- The public `add_modrinth_mod` wrapper preserves the invariant. -/
theorem inv_addModrinthMod {reg : ModrinthRegistry} {st : St} {profile_id : String}
    {a : RecArgs} {ad : Bool} (hInv : ProfilesInvariant st) :
    ProfilesInvariant (addModrinthMod reg st profile_id a ad).1 :=
  (addM_processDeps_inv reg (unvisitedCount reg []) [] (Nat.le_refl _)).1 st profile_id a ad hInv

/-- One iteration of the post-switch missing-dependency loop preserves the
invariant. -/
theorem inv_installMissingModrinthDepStep {reg : ModrinthRegistry} {st : St}
    {profile_id dep_project_id : String} {dep_version_id_opt : Option String}
    (hInv : ProfilesInvariant st) :
    ProfilesInvariant
      (installMissingModrinthDepStep reg st profile_id dep_project_id dep_version_id_opt).1 := by
  unfold installMissingModrinthDepStep
  repeat' (first
    | exact inv_addModrinthMod hInv
    | exact hInv
    | (next st' heq =>
        have : ProfilesInvariant st' := by
          split at heq
          · split at heq
            · split at heq
              · cases heq; exact inv_addModrinthMod hInv
              · cases heq
            · cases heq
          · cases heq
        exact this)
    | split
    | dsimp only)

/-- The missing-dependency loop after a Modrinth version switch preserves the
invariant. -/
theorem inv_installMissingModrinthDeps {reg : ModrinthRegistry} {profile_id : String} :
    ∀ (missing : List (String × Option String)) (st : St), ProfilesInvariant st →
      ProfilesInvariant (installMissingModrinthDeps reg st profile_id missing).1 := by
  intro missing
  induction missing with
  | nil => intro st hInv; exact hInv
  | cons hd rest ih =>
    intro st hInv
    obtain ⟨dep_project_id, dep_version_id_opt⟩ := hd
    have hstep :=
      @inv_installMissingModrinthDepStep reg st profile_id dep_project_id
        dep_version_id_opt hInv
    rw [installMissingModrinthDeps]
    split
    next st' heq =>
      rw [heq] at hstep
      exact ih _ hstep
    next st' e heq =>
      rw [heq] at hstep
      exact hstep

/-- `add_mod_from_payload`'s core insert preserves the invariant. -/
theorem inv_addModFromPayloadCore {st : St} {payload : InstallContentPayload}
    (hInv : ProfilesInvariant st) : ProfilesInvariant (addModFromPayloadCore st payload).1 := by
  unfold addModFromPayloadCore
  split
  · exact hInv
  next profile hlk =>
    dsimp only
    split
    next hany =>
      intro kp hkp
      exact inv_guarded_push hInv hlk (by simpa using hany) kp hkp
    next => exact hInv

theorem foldl_inv {α : Type} {f : St → α → St}
    (hf : ∀ s a, ProfilesInvariant s → ProfilesInvariant (f s a)) :
    ∀ (l : List α) (s : St), ProfilesInvariant s → ProfilesInvariant (List.foldl f s l) := by
  intro l
  induction l with
  | nil => intro s hs; exact hs
  | cons a rest ih => intro s hs; exact ih _ (hf s a hs)

/-- The payload-path Modrinth dependency installer preserves the invariant. -/
theorem inv_installModrinthDependenciesPayload {reg : ModrinthRegistry} {st : St}
    {profile_id : String} {version : ModrinthVersion} (hInv : ProfilesInvariant st) :
    ProfilesInvariant (installModrinthDependenciesPayload reg st profile_id version).1 := by
  unfold installModrinthDependenciesPayload
  split
  · exact hInv
  next profile hlk =>
    dsimp only
    refine foldl_inv ?_ _ _ hInv
    intro s dependency hs
    repeat' (first
      | exact inv_addModFromPayloadCore hs
      | exact hs
      | split)

/-- The CurseForge dependency installer preserves the invariant. -/
theorem inv_installCurseforgeDependencies {cf : CurseForgeEnv} {st : St}
    {profile_id : String} {file : CurseForgeFile} (hInv : ProfilesInvariant st) :
    ProfilesInvariant (installCurseforgeDependencies cf st profile_id file).1 := by
  unfold installCurseforgeDependencies
  split
  · exact hInv
  next profile hlk =>
    dsimp only
    refine foldl_inv ?_ _ _ hInv
    intro s dependency hs
    repeat' (first
      | exact inv_addModFromPayloadCore hs
      | exact hs
      | split)

/-- The unified dependency step preserves the invariant. -/
theorem inv_installDependenciesForMod {uni : UnifiedEnv} {reg : ModrinthRegistry}
    {cf : CurseForgeEnv} {st : St} {payload : InstallContentPayload}
    (hInv : ProfilesInvariant st) :
    ProfilesInvariant (installDependenciesForMod uni reg cf st payload).1 := by
  unfold installDependenciesForMod
  split
  · exact hInv
  · split
    · split
      · split
        · exact inv_installModrinthDependenciesPayload hInv
        · exact hInv
      · split
        · exact inv_installCurseforgeDependencies hInv
        · exact hInv
    · exact hInv

/-- The full `add_mod_from_payload` preserves the invariant. -/
theorem inv_addModFromPayload {uni : UnifiedEnv} {reg : ModrinthRegistry}
    {cf : CurseForgeEnv} {st : St} {payload : InstallContentPayload} {ad : Bool}
    (hInv : ProfilesInvariant st) :
    ProfilesInvariant (addModFromPayload uni reg cf st payload ad).1 := by
  unfold addModFromPayload
  have hcore := @inv_addModFromPayloadCore st payload hInv
  split
  next st1 e heq =>
    rw [heq] at hcore
    exact hcore
  next st1 heq =>
    rw [heq] at hcore
    split
    · exact inv_installDependenciesForMod hcore
    · exact hcore

theorem mem_updateFirstModById {mods : List Mod} {mod_id : Nat} {f : Mod → Mod} {x : Mod}
    (hx : x ∈ updateFirstModById mods mod_id f) :
    x ∈ mods ∨ ∃ y ∈ mods, y.id = mod_id ∧ x = f y := by
  induction mods with
  | nil => simp [updateFirstModById] at hx
  | cons m rest ih =>
    by_cases hm : m.id = mod_id
    · rw [updateFirstModById, if_pos hm] at hx
      rcases List.mem_cons.1 hx with rfl | hmem
      · exact Or.inr ⟨m, List.mem_cons_self _ _, hm, rfl⟩
      · exact Or.inl (List.mem_cons_of_mem _ hmem)
    · rw [updateFirstModById, if_neg hm] at hx
      rcases List.mem_cons.1 hx with rfl | hmem
      · exact Or.inl (List.mem_cons_self _ _)
      · rcases ih hmem with h | ⟨y, hy, hyid, hxy⟩
        · exact Or.inl (List.mem_cons_of_mem _ h)
        · exact Or.inr ⟨y, List.mem_cons_of_mem _ hy, hyid, hxy⟩

/-- Rewriting the unique mod carrying `mod_id` to a source no other mod
carries keeps the list source-deduped. -/
theorem noDupSources_updateFirst {mods : List Mod} {mod_id : Nat} {f : Mod → Mod}
    {newSrc : ModSource}
    (h : noDupSources mods)
    (hcount : mods.countP (fun m => m.id == mod_id) ≤ 1)
    (hothers : ∀ m ∈ mods, m.id ≠ mod_id → m.source ≠ newSrc)
    (hf : ∀ m, (f m).source = newSrc) :
    noDupSources (updateFirstModById mods mod_id f) := by
  induction mods with
  | nil => exact h
  | cons m rest ih =>
    have hpair := (List.pairwise_cons.1 h)
    by_cases hm : m.id = mod_id
    · rw [updateFirstModById, if_pos hm]
      refine List.pairwise_cons.2 ⟨?_, hpair.2⟩
      intro x hx
      rw [hf m]
      by_cases hxid : x.id = mod_id
      · exfalso
        have h2 : 0 < rest.countP (fun m => m.id == mod_id) :=
          List.countP_pos_iff.2 ⟨x, hx, by simpa using hxid⟩
        simp only [List.countP_cons, beq_iff_eq, if_pos hm] at hcount
        omega
      · exact fun hcontra => hothers x (List.mem_cons_of_mem _ hx) hxid hcontra.symm
    · rw [updateFirstModById, if_neg hm]
      refine List.pairwise_cons.2 ⟨?_, ?_⟩
      · intro x hx
        rcases mem_updateFirstModById hx with hmem | ⟨y, hy, hyid, rfl⟩
        · exact hpair.1 x hmem
        · rw [hf y]
          exact hothers m (List.mem_cons_self _ _) hm
      · refine ih hpair.2 ?_ ?_
        · simp only [List.countP_cons, beq_iff_eq, if_neg hm] at hcount
          omega
        · exact fun x hx => hothers x (List.mem_cons_of_mem _ hx)

/-- The Modrinth version switch preserves the invariant provided the mod being
switched is the only carrier of its id and no other mod already carries the
incoming source. -/
theorem inv_updateProfileModrinthModVersion {reg : ModrinthRegistry} {st : St}
    {profile_id : String} {mod_id : Nat} {nv : ModrinthVersion}
    (hInv : ProfilesInvariant st)
    (hcond : ∀ profile, lookupProfile st.profiles profile_id = some profile →
      profile.mods.countP (fun m => m.id == mod_id) ≤ 1 ∧
      ∀ pf, nv.files.find? (fun f => f.primary) = some pf →
        ∀ m ∈ profile.mods, m.id ≠ mod_id →
          m.source ≠ .modrinth nv.project_id nv.id pf.filename pf.url pf.hashes.sha1) :
    ProfilesInvariant (updateProfileModrinthModVersion reg st profile_id mod_id nv).1 := by
  unfold updateProfileModrinthModVersion
  split
  · exact hInv
  next profile hlk =>
    dsimp only
    split
    · exact hInv
    next mod_to_update hfindm =>
      split
      · split
        · exact hInv
        next hproj =>
          split
          · exact hInv
          next pf hpf =>
            refine inv_installMissingModrinthDeps _ _ ?_
            intro kp hkp
            refine lookupProfile_adjust_inv hInv ?_ kp hkp
            intro q hq
            rw [hlk] at hq
            cases hq
            exact noDupSources_updateFirst
              (hInv (profile_id, profile) (lookupProfile_entry_mem hlk))
              (hcond profile hlk).1
              ((hcond profile hlk).2 pf hpf)
              (fun m => rfl)
      · exact hInv

/-- The CurseForge version switch preserves the invariant under the same
conditions. -/
theorem inv_updateProfileCurseforgeModVersion {cf : CurseForgeEnv} {st : St}
    {profile_id : String} {mod_id : Nat} {nv : CurseForgeFile}
    (hInv : ProfilesInvariant st)
    (hcond : ∀ profile, lookupProfile st.profiles profile_id = some profile →
      profile.mods.countP (fun m => m.id == mod_id) ≤ 1 ∧
      ∀ m ∈ profile.mods, m.id ≠ mod_id →
        ∀ sha loaderValue, m.source ≠ .curseForge (toString nv.modId) (toString nv.id)
          nv.fileName nv.downloadUrl sha loaderValue) :
    ProfilesInvariant (updateProfileCurseforgeModVersion cf st profile_id mod_id nv).1 := by
  unfold updateProfileCurseforgeModVersion
  split
  · exact hInv
  next profile hlk =>
    dsimp only
    split
    · exact hInv
    next mod_to_update hfindm =>
      split
      · split
        · exact hInv
        next hproj =>
          have hst1 : ProfilesInvariant (doSave { st with
              profiles := adjustProfile st.profiles profile_id (fun p =>
                { p with mods := updateFirstModById p.mods mod_id (fun m =>
                    { m with
                      source := .curseForge (toString nv.modId) (toString nv.id) nv.fileName
                        nv.downloadUrl
                        ((nv.hashes.find? (fun h => h.algo == 1)).map (fun h => h.value))
                        (some nv.fileFingerprint)
                      version := some nv.displayName
                      game_versions := some nv.gameVersions
                      associated_loader :=
                        match m.associated_loader with
                        | some l => some l
                        | none => (cf.extractLoaders nv.gameVersions).head?.bind
                            (fun s => ModLoader.fromStr s) }) }) }) := by
            intro kp hkp
            refine lookupProfile_adjust_inv hInv ?_ kp hkp
            intro q hq
            rw [hlk] at hq
            cases hq
            exact noDupSources_updateFirst
              (hInv (profile_id, profile) (lookupProfile_entry_mem hlk))
              (hcond profile hlk).1
              (fun m hm hmid => (hcond profile hlk).2 m hm hmid _ _)
              (fun m => rfl)
          split
          · exact inv_installCurseforgeDependencies hst1
          · exact hst1
      · exact hInv

/- ### Characterization of the latest-by-date choice -/

theorem maxByDateAux_mem (b : ModrinthVersion) (l : List ModrinthVersion) :
    maxByDateAux b l = b ∨ maxByDateAux b l ∈ l := by
  induction l generalizing b with
  | nil => exact Or.inl rfl
  | cons v rest ih =>
    rw [maxByDateAux]
    by_cases hle : b.date_published ≤ v.date_published
    · rw [if_pos hle]
      rcases ih v with h | h
      · exact Or.inr (by rw [h]; exact List.mem_cons_self _ _)
      · exact Or.inr (List.mem_cons_of_mem _ h)
    · rw [if_neg hle]
      rcases ih b with h | h
      · exact Or.inl h
      · exact Or.inr (List.mem_cons_of_mem _ h)

theorem maxByDateAux_ge_seed (b : ModrinthVersion) (l : List ModrinthVersion) :
    b.date_published ≤ (maxByDateAux b l).date_published := by
  induction l generalizing b with
  | nil => exact Nat.le_refl _
  | cons v rest ih =>
    rw [maxByDateAux]
    by_cases hle : b.date_published ≤ v.date_published
    · rw [if_pos hle]
      exact Nat.le_trans hle (ih v)
    · rw [if_neg hle]
      exact ih b

theorem maxByDateAux_ge_mem (b : ModrinthVersion) (l : List ModrinthVersion) :
    ∀ v ∈ l, v.date_published ≤ (maxByDateAux b l).date_published := by
  induction l generalizing b with
  | nil => intro v hv; cases hv
  | cons w rest ih =>
    intro v hv
    rw [maxByDateAux]
    rcases List.mem_cons.1 hv with rfl | hmem
    · by_cases hle : b.date_published ≤ v.date_published
      · rw [if_pos hle]
        exact maxByDateAux_ge_seed v rest
      · rw [if_neg hle]
        exact Nat.le_trans (Nat.le_of_not_le hle) (maxByDateAux_ge_seed b rest)
    · by_cases hle : b.date_published ≤ w.date_published
      · rw [if_pos hle]
        exact ih w v hmem
      · rw [if_neg hle]
        exact ih b v hmem

theorem maxByDate_mem {l : List ModrinthVersion} {w : ModrinthVersion}
    (h : maxByDate l = some w) : w ∈ l := by
  cases l with
  | nil => cases h
  | cons v rest =>
    rw [maxByDate] at h
    cases h
    rcases maxByDateAux_mem v rest with h | h
    · rw [h]
      exact List.mem_cons_self _ _
    · exact List.mem_cons_of_mem _ h

theorem maxByDate_ge {l : List ModrinthVersion} {w : ModrinthVersion}
    (h : maxByDate l = some w) : ∀ v ∈ l, v.date_published ≤ w.date_published := by
  cases l with
  | nil => cases h
  | cons v rest =>
    rw [maxByDate] at h
    cases h
    intro x hx
    rcases List.mem_cons.1 hx with rfl | hmem
    · exact maxByDateAux_ge_seed x rest
    · exact maxByDateAux_ge_mem v rest x hmem

theorem maxByDate_isSome {l : List ModrinthVersion} (h : l ≠ []) :
    ∃ w, maxByDate l = some w := by
  cases l with
  | nil => exact absurd rfl h
  | cons v rest => exact ⟨maxByDateAux v rest, rfl⟩

/- ### Deletion-phase lemmas -/

theorem contains_iff_mem {l : List FsPath} {q : FsPath} : l.contains q = true ↔ q ∈ l := by
  simp [List.contains]

theorem mem_dirs_trashDir {fs : FsWorld} {p q : FsPath} :
    q ∈ (trashDir fs p).dirs ↔ q ∈ fs.dirs ∧ q ≠ p := by
  simp [trashDir, List.mem_filter]

theorem mem_trash_trashDir {fs : FsWorld} {p q : FsPath} :
    q ∈ (trashDir fs p).trash ↔ q = p ∨ q ∈ fs.trash := by
  simp [trashDir]

theorem deleteMainDirPhase_shared {env : PathEnv} {ps : List (String × Profile)} {id : String}
    {profile : Profile} {fs : FsWorld}
    (h : hasOtherProfileWithSamePath ps id (calculateInstancePathForProfile env profile)
      (calculateInstancePathForProfile env) = true) :
    deleteMainDirPhase env ps id profile fs = fs := by
  unfold deleteMainDirPhase
  simp [h]

theorem deleteMainDirPhase_sole {env : PathEnv} {ps : List (String × Profile)} {id : String}
    {profile : Profile} {fs : FsWorld}
    (h : hasOtherProfileWithSamePath ps id (calculateInstancePathForProfile env profile)
      (calculateInstancePathForProfile env) = false)
    (hdir : calculateInstancePathForProfile env profile ∈ fs.dirs) :
    deleteMainDirPhase env ps id profile fs =
      trashDir fs (calculateInstancePathForProfile env profile) := by
  unfold deleteMainDirPhase
  simp only [h, Bool.not_false, if_true, contains_iff_mem.2 hdir]

/-- The individual-directory phase never touches the profile's main instance
directory. -/
theorem mem_dirs_deleteIndividualDirPhase {env : PathEnv} {ps : List (String × Profile)}
    {id : String} {profile : Profile} {fs : FsWorld} {q : FsPath}
    (hq : q ∈ fs.dirs) (hqpath : q = calculateInstancePathForProfile env profile) :
    q ∈ (deleteIndividualDirPhase env ps id profile fs).dirs := by
  unfold deleteIndividualDirPhase
  dsimp only
  split
  next hne =>
    split
    · exact hq
    · split
      · exact mem_dirs_trashDir.2 ⟨hq, fun hcontra => hne (by rw [← hcontra, ← hqpath])⟩
      · exact hq
  next => exact hq

theorem dirs_deleteIndividualDirPhase_subset {env : PathEnv} {ps : List (String × Profile)}
    {id : String} {profile : Profile} {fs : FsWorld} {q : FsPath}
    (hq : q ∈ (deleteIndividualDirPhase env ps id profile fs).dirs) : q ∈ fs.dirs := by
  unfold deleteIndividualDirPhase at hq
  dsimp only at hq
  split at hq
  · split at hq
    · exact hq
    · split at hq
      · exact (mem_dirs_trashDir.1 hq).1
      · exact hq
  · exact hq

theorem trash_deleteIndividualDirPhase_mono {env : PathEnv} {ps : List (String × Profile)}
    {id : String} {profile : Profile} {fs : FsWorld} {q : FsPath}
    (hq : q ∈ fs.trash) : q ∈ (deleteIndividualDirPhase env ps id profile fs).trash := by
  unfold deleteIndividualDirPhase
  dsimp only
  split
  · split
    · exact hq
    · split
      · exact mem_trash_trashDir.2 (Or.inr hq)
      · exact hq
  · exact hq

theorem lookupProfile_remove_self (ps : List (String × Profile)) (id : String) :
    lookupProfile (removeProfile ps id) id = none := by
  induction ps with
  | nil => rfl
  | cons kp rest ih =>
    by_cases hk : kp.1 = id
    · simpa [removeProfile, hk] using ih
    · simpa [removeProfile, lookupProfile, hk] using ih

theorem lookupProfile_remove_ne {ps : List (String × Profile)} {id1 id2 : String}
    (h : id2 ≠ id1) : lookupProfile (removeProfile ps id1) id2 = lookupProfile ps id2 := by
  induction ps with
  | nil => rfl
  | cons kp rest ih =>
    by_cases hk : kp.1 = id1
    · rw [removeProfile, List.filter_cons_of_neg (by simpa using hk)]
      rw [lookupProfile, if_neg (by rw [hk]; exact fun hc => h hc.symm)]
      exact ih
    · rw [removeProfile, List.filter_cons_of_pos (by simpa using hk)]
      rw [lookupProfile, lookupProfile]
      split
      · rfl
      · exact ih

theorem mem_removeProfile {ps : List (String × Profile)} {id : String}
    {kp : String × Profile} (h : kp ∈ removeProfile ps id) : kp ∈ ps ∧ kp.1 ≠ id := by
  have := List.mem_filter.1 h
  exact ⟨this.1, by simpa using this.2⟩

/- ### Fixtures for concrete runs of the operations -/

/-- A minimal fabric profile with no mods, used to run the operations. -/
def emptyFabricProfile : Profile :=
  ⟨"11112222-3333-4444-5555-666677778888", "Prof", "Prof", "1.20.1", .fabric, [],
    none, false, false⟩

/-- A one-profile manager state around `emptyFabricProfile`. -/
def oneProfileSt : St := ⟨[("p", emptyFabricProfile)], 0, [], 0⟩

/-- A locally-sourced mod used to exercise `add_mod`. -/
def localJarMod : Mod :=
  ⟨5, .localFile "x.jar", true, none, none, none, none, none, none, true⟩

/-- The primary file of the cyclic example's mod A. -/
def cycFileA : ModrinthFile := ⟨"a.jar", "uA", ⟨none⟩, true⟩

/-- The primary file of the cyclic example's mod B. -/
def cycFileB : ModrinthFile := ⟨"b.jar", "uB", ⟨none⟩, true⟩

/-- Mod A's version: requires project B. -/
def cycVerA : ModrinthVersion :=
  ⟨"av", "A", "ModA", "1.0", 10, ["fabric"], ["1.20.1"],
    [⟨some "B", none, .required, none⟩], [cycFileA]⟩

/-- Mod B's version: requires project A, closing the cycle. -/
def cycVerB : ModrinthVersion :=
  ⟨"bv", "B", "ModB", "2.0", 20, ["fabric"], ["1.20.1"],
    [⟨some "A", none, .required, none⟩], [cycFileB]⟩

/-- The cyclic two-project catalog: A requires B and B requires A. -/
def cycleReg : ModrinthRegistry := ⟨[("A", [cycVerA]), ("B", [cycVerB])]⟩

/-- The top-level request of the cyclic example: install A's version. -/
def cycArgsA : RecArgs := recArgsOfVersion cycVerA cycFileA

/-- How many mods of the named profile come from the given Modrinth project. -/
def countProjectMods (st : St) (profile_id project_id : String) : Nat :=
  match lookupProfile st.profiles profile_id with
  | none => 0
  | some p => p.mods.countP (fun m => match m.source with
      | .modrinth q _ _ _ _ => q = project_id
      | _ => false)

/-- Does a version support one of the target game versions? The filter of
selection step (b). -/
def gvIntersects (v : ModrinthVersion) (target_game_versions : List String) : Bool :=
  target_game_versions.any (fun target_gv => v.game_versions.contains target_gv)

/-- The selection policy exactly as the claim words it: (a) the exact version
id named by the dependency when present in the filtered list; (b) otherwise
the most-recently-published version whose supported-game-version list
intersects the parent mod's supported-game-version list; (c) otherwise the
most-recently-published version of the filtered list. Stated for comparison
with `selectDepVersion`, the code's selection. -/
def claimSelectionPolicy (dep_versions : List ModrinthVersion)
    (target_version_id : Option String) (parent_game_versions : List String) :
    Option ModrinthVersion :=
  let fromRequestedId :=
    match target_version_id with
    | some tv => dep_versions.find? (fun v => v.id == tv)
    | none => none
  match fromRequestedId with
  | some v => some v
  | none =>
    match maxByDate (dep_versions.filter (fun dep_v => gvIntersects dep_v parent_game_versions))
    with
    | some v => some v
    | none => maxByDate dep_versions

/-- Dependency-project version supporting 1.20.1, published earlier. -/
def depVerOld : ModrinthVersion :=
  ⟨"d1", "D", "Dep 1", "1.0", 1, ["fabric"], ["1.20.1"], [], [⟨"d1.jar", "ud1", ⟨none⟩, true⟩]⟩

/-- Dependency-project version supporting only 1.19, published later. -/
def depVerNew : ModrinthVersion :=
  ⟨"d2", "D", "Dep 2", "2.0", 2, ["fabric"], ["1.19"], [], [⟨"d2.jar", "ud2", ⟨none⟩, true⟩]⟩

/-- Two Modrinth mods of one project at different versions: a state every add
operation accepts (the sources differ). -/
def dupModV1 : Mod :=
  ⟨1, .modrinth "P" "v1" "f1.jar" "u1" none, true, none, some "1", none, none, none, none, true⟩

/-- The second version of the same project, already installed. -/
def dupModV2 : Mod :=
  ⟨2, .modrinth "P" "v2" "f2.jar" "u2" none, true, none, some "2", none, none, none, none, true⟩

/-- A profile holding both versions of project P. -/
def dupProfile : Profile :=
  ⟨"9999aaaa-bbbb-cccc-dddd-eeeeffff0000", "Dup", "Dup", "1.20.1", .fabric,
    [dupModV1, dupModV2], none, false, false⟩

/-- The manager state around `dupProfile`. -/
def dupSt : St := ⟨[("p", dupProfile)], 10, [], 0⟩

/-- The version-switch target: project P's v2, whose primary file coincides
with the installed `dupModV2`. -/
def dupNewVersion : ModrinthVersion :=
  ⟨"v2", "P", "Ver 2", "2", 5, ["fabric"], ["1.20.1"], [], [⟨"f2.jar", "u2", ⟨none⟩, true⟩]⟩

/-- An empty catalog (no dependencies get fetched in these runs). -/
def emptyReg : ModrinthRegistry := ⟨[]⟩

/-- A path environment with a fixed base, a non-legacy version predicate and
the identity sanitizer. -/
def plainEnv : PathEnv := ⟨["base", "profiles"], fun _ => false, fun s => s⟩

/-- A shared-folder Forge profile in a custom group. -/
def sharedForgeP1 : Profile :=
  ⟨"aaaa1111-2222-3333-4444-555566667777", "S1", "S1", "1.20.1", .forge, [],
    some "friends", true, false⟩

/-- A second, distinct shared-folder Forge profile in the same group. -/
def sharedForgeP2 : Profile :=
  ⟨"bbbb1111-2222-3333-4444-555566667779", "S2", "S2", "1.20.1", .forge, [],
    some "friends", true, false⟩

/-- A Modrinth version of an unrelated project Q, used as a cross-project
switch target. -/
def mismatchVersion : ModrinthVersion :=
  ⟨"q1", "Q", "QQ", "1", 7, ["fabric"], ["1.20.1"], [], [⟨"q.jar", "uq", ⟨none⟩, true⟩]⟩

/-- An installed CurseForge mod. -/
def cfInstalledMod : Mod :=
  ⟨3, .curseForge "238222" "111" "jei.jar" "u" none none, true, none, none, none, none,
    none, none, true⟩

/-- A profile holding the CurseForge mod. -/
def cfProfile : Profile :=
  ⟨"12121212-3434-5656-7878-909090909090", "CF", "CF", "1.20.1", .forge,
    [cfInstalledMod], none, false, false⟩

/-- The manager state around `cfProfile`. -/
def cfSt : St := ⟨[("p", cfProfile)], 20, [], 0⟩

/-- A CurseForge file belonging to a different project (mod id 999). -/
def cfMismatchFile : CurseForgeFile :=
  ⟨777, 999, "Other 1.0", "other.jar", "uo", 9, [], 42, ["1.20.1"], []⟩

/-- A CurseForge environment whose lookups all fail (never consulted in the
runs below). -/
def cfEnvEmpty : CurseForgeEnv := ⟨fun _ => none, fun _ _ => none, fun _ _ => none, fun _ => []⟩

/-- A shared-folder Fabric profile in the same custom group. -/
def sharedFabricP : Profile :=
  ⟨"cccc1111-2222-3333-4444-55556666777a", "SF", "SF", "1.20.1", .fabric, [],
    some "friends", true, false⟩

/- ### Claims -/

/-- C9: for a custom mod present in its enabled or disabled name form,
requesting the state it is already in performs no file operation and returns
success, while requesting the opposite state performs exactly one rename
between the base name and the base name with the disabled suffix appended. -/
theorem c9_thm (files : List String) (filename : String) (set_enabled : Bool)
    (hbase : filename.endsWith ".disabled" = false)
    (hpresent : filename ∈ files ∨ (filename ++ ".disabled") ∈ files) :
    (set_enabled = files.contains filename →
      setCustomModEnabled files filename set_enabled = ⟨files, 0, .ok ()⟩) ∧
    (set_enabled = true → files.contains filename = false →
      setCustomModEnabled files filename set_enabled =
        ⟨renameFile files (filename ++ ".disabled") filename, 1, .ok ()⟩) ∧
    (set_enabled = false → files.contains filename = true →
      setCustomModEnabled files filename set_enabled =
        ⟨renameFile files filename (filename ++ ".disabled"), 1, .ok ()⟩) := by
  have hpres : files.contains filename = true ∨
      files.contains (filename ++ ".disabled") = true := by
    rcases hpresent with h | h
    · exact Or.inl (by simpa [List.contains] using h)
    · exact Or.inr (by simpa [List.contains] using h)
  cases hse : set_enabled <;>
    cases hc : files.contains filename <;>
      cases hd : files.contains (filename ++ ".disabled") <;>
        simp_all [setCustomModEnabled, hbase]

/-- C9 witness: a mod that is enabled stays untouched when enabling is
requested again. -/
theorem c9_witness :
    setCustomModEnabled ["a.jar"] "a.jar" true = ⟨["a.jar"], 0, .ok ()⟩ :=
  (c9_thm ["a.jar"] "a.jar" true (by decide) (Or.inl (by decide))).1 (by decide)

/-- C10: `add_mod` on a source already present errors and leaves the state
(profile map, persisted-file image, flush counter) untouched; on a fresh
source it appends the mod and flushes. -/
theorem c10_thm (st : St) (profile_id : String) (mod_info : Mod) (profile : Profile)
    (hlk : lookupProfile st.profiles profile_id = some profile) :
    ((∃ m ∈ profile.mods, m.source = mod_info.source) →
      addMod st profile_id mod_info =
        (st, .error (.other ("Mod already exists in profile " ++ profile_id)))) ∧
    ((∀ m ∈ profile.mods, m.source ≠ mod_info.source) →
      addMod st profile_id mod_info =
        (doSave { st with
          profiles := adjustProfile st.profiles profile_id
            (fun p => { p with mods := p.mods ++ [mod_info] }) }, .ok ())) := by
  constructor
  · rintro ⟨m, hm, hsrc⟩
    have hany : profile.mods.any (fun m => m.source == mod_info.source) = true :=
      List.any_eq_true.2 ⟨m, hm, by simpa using hsrc⟩
    simp [addMod, hlk, hany]
  · intro hfresh
    have hany : profile.mods.any (fun m => m.source == mod_info.source) = false :=
      List.any_eq_false.2 (fun m hm => by simpa using hfresh m hm)
    simp [addMod, hlk, hany]

/-- C10 witness: re-adding the only installed mod errors without a flush, at a
concrete one-profile state. -/
theorem c10_witness :
    addMod ⟨[("p", { emptyFabricProfile with mods := [localJarMod] })], 0, [], 0⟩ "p"
        { localJarMod with id := 9 } =
      (⟨[("p", { emptyFabricProfile with mods := [localJarMod] })], 0, [], 0⟩,
        .error (.other ("Mod already exists in profile " ++ "p"))) :=
  (c10_thm _ "p" _ { emptyFabricProfile with mods := [localJarMod] } (by decide)).1
    ⟨localJarMod, by decide, by decide⟩

/-- C5: load never surfaces an error: a missing file with no backup loads as
the empty collection after a restoration attempt; a corrupt file is copied
aside once, restoration is attempted, and the result is the restored backup's
contents when it parses and the empty collection once the retry budget is
exhausted. -/
theorem c5_thm (w : LoadWorld) :
    (∃ ps, (loadProfilesInternal w).2 = Except.ok ps) ∧
    (w.file = none → w.backup = none →
      loadProfilesInternal w =
        ({ w with restoreAttempts := w.restoreAttempts + 1 }, Except.ok [])) ∧
    (w.file = some .corrupt →
      (loadProfilesInternal w).1.corruptCopies = w.corruptCopies + 1 ∧
      (loadProfilesInternal w).1.restoreAttempts = w.restoreAttempts + 1 ∧
      (w.backup = none → (loadProfilesInternal w).2 = Except.ok []) ∧
      (w.backup = some .corrupt → (loadProfilesInternal w).2 = Except.ok []) ∧
      (∀ ps, w.backup = some (.parses ps) → (loadProfilesInternal w).2 = Except.ok ps)) := by
  obtain ⟨file, backup, cc, ra⟩ := w
  refine ⟨?_, ?_, ?_⟩
  · cases file with
    | none =>
      cases backup with
      | none => exact ⟨[], by simp [loadProfilesInternal, loadLoop, restoreFromBackup]⟩
      | some b =>
        cases b <;>
          simp [loadProfilesInternal, loadLoop, restoreFromBackup]
    | some fc =>
      cases fc with
      | unreadable =>
        cases backup with
        | none => exact ⟨[], by simp [loadProfilesInternal, loadLoop, restoreFromBackup]⟩
        | some b =>
          cases b <;>
            simp [loadProfilesInternal, loadLoop, restoreFromBackup]
      | corrupt =>
        cases backup with
        | none => exact ⟨[], by simp [loadProfilesInternal, loadLoop, restoreFromBackup]⟩
        | some b =>
          cases b <;>
            simp [loadProfilesInternal, loadLoop, restoreFromBackup]
      | parses ps =>
        exact ⟨ps, by simp [loadProfilesInternal, loadLoop]⟩
  · intro hf hb
    cases hf
    cases hb
    simp [loadProfilesInternal, loadLoop, restoreFromBackup]
  · intro hf
    cases hf
    cases backup with
    | none =>
      refine ⟨?_, ?_, ?_, ?_, ?_⟩ <;>
        simp [loadProfilesInternal, loadLoop, restoreFromBackup]
    | some b =>
      cases b <;>
        (refine ⟨?_, ?_, ?_, ?_, ?_⟩ <;>
          simp [loadProfilesInternal, loadLoop, restoreFromBackup])

/-- C5 witness: a corrupt file with one valid backup loads the backup's
contents and preserves the corrupt copy. -/
theorem c5_witness :
    (loadProfilesInternal ⟨some .corrupt, some (.parses [emptyFabricProfile]), 0, 0⟩).2 =
      Except.ok [emptyFabricProfile] :=
  (c5_thm ⟨some .corrupt, some (.parses [emptyFabricProfile]), 0, 0⟩).2.2 rfl |>.2.2.2.2
    [emptyFabricProfile] rfl

/-- C6: a save of an empty in-memory collection while the backup set is
non-empty first attempts automatic recovery, writes nothing when the recovery
succeeds (the file now holds the restored backup), and overwrites the file
with the empty collection only when the recovery attempt fails. -/
theorem c6_thm (profiles : List Profile) (w : SaveWorld)
    (hempty : profiles = []) (hbackups : w.backups ≠ []) :
    (saveProfilesDisk profiles w).world.restoreAttempts = w.restoreAttempts + 1 ∧
    ((saveProfilesDisk profiles w).wrote = some profiles → w.restoreSucceeds = false) ∧
    (w.restoreSucceeds = true →
      (saveProfilesDisk profiles w).wrote = none ∧
      (saveProfilesDisk profiles w).world.fileContent = w.backups.head?) := by
  cases hempty
  have hb : w.backups.isEmpty = false := by
    cases hw : w.backups with
    | nil => exact absurd hw hbackups
    | cons x xs => rfl
  cases hr : w.restoreSucceeds <;>
    simp [saveProfilesDisk, writeOut, hb, hr]

/-- C6 witness: at a concrete world with a working restore, nothing is
written and the file holds the restored backup. -/
theorem c6_witness :
    (saveProfilesDisk [] ⟨some [], [[emptyFabricProfile]], true, 0⟩).wrote = none ∧
    (saveProfilesDisk [] ⟨some [], [[emptyFabricProfile]], true, 0⟩).world.fileContent =
      some [emptyFabricProfile] :=
  (c6_thm [] ⟨some [], [[emptyFabricProfile]], true, 0⟩ rfl (by decide)).2.2 rfl

/-- C4: switching an installed mod to a version of a different project fails
with the conflict error and returns the state — mod record, profile map,
persisted-file image and flush counter — entirely unchanged, for both the
Modrinth and the CurseForge version switch. -/
theorem c4_thm :
    (∀ (reg : ModrinthRegistry) (st : St) (profile_id : String) (mod_id : Nat)
      (nv : ModrinthVersion) (profile : Profile) (m : Mod) (p v f u : String)
      (h : Option String),
      lookupProfile st.profiles profile_id = some profile →
      profile.mods.find? (fun x => x.id == mod_id) = some m →
      m.source = ModSource.modrinth p v f u h →
      nv.project_id ≠ p →
      updateProfileModrinthModVersion reg st profile_id mod_id nv =
        (st, .error (.other ("Project ID mismatch for mod " ++ toString mod_id)))) ∧
    (∀ (cf : CurseForgeEnv) (st : St) (profile_id : String) (mod_id : Nat)
      (nv : CurseForgeFile) (profile : Profile) (m : Mod) (p fid fn du : String)
      (sha : Option String) (fp : Option Nat),
      lookupProfile st.profiles profile_id = some profile →
      profile.mods.find? (fun x => x.id == mod_id) = some m →
      m.source = ModSource.curseForge p fid fn du sha fp →
      toString nv.modId ≠ p →
      updateProfileCurseforgeModVersion cf st profile_id mod_id nv =
        (st, .error (.other ("Project ID mismatch for CurseForge mod " ++ toString mod_id)))) := by
  constructor
  · intro reg st profile_id mod_id nv profile m p v f u h hlk hfind hsrc hne
    unfold updateProfileModrinthModVersion
    rw [hlk]
    dsimp only
    rw [hfind]
    dsimp only
    rw [hsrc]
    dsimp only
    rw [if_pos (Ne.symm hne)]
  · intro cf st profile_id mod_id nv profile m p fid fn du sha fp hlk hfind hsrc hne
    unfold updateProfileCurseforgeModVersion
    rw [hlk]
    dsimp only
    rw [hfind]
    dsimp only
    rw [hsrc]
    dsimp only
    rw [if_pos (Ne.symm hne)]

/-- C4 witness: switching the installed P-v1 mod to a version of project Q
fails with the conflict error and the state is returned unchanged. -/
theorem c4_witness :
    updateProfileModrinthModVersion emptyReg dupSt "p" 1 mismatchVersion =
      (dupSt, .error (.other ("Project ID mismatch for mod " ++ toString 1))) :=
  c4_thm.1 emptyReg dupSt "p" 1 mismatchVersion dupProfile dupModV1 "P" "v1" "f1.jar"
    "u1" none (by decide) (by decide) (by decide) (by decide)

theorem string_eq_of_data_eq {a b : String} (h : a.data = b.data) : a = b := by
  cases a
  cases b
  exact congrArg String.mk h

theorem uuidShort_data_length {idStr : String}
    (h : 4 ≤ (idStr.data.filter (fun c => c ≠ '-')).length) :
    (uuidShort idStr).data.length = 4 := by
  unfold uuidShort
  dsimp only
  rw [if_pos h]
  dsimp only
  rw [List.length_append, List.length_take, List.length_drop]
  omega

/-- C8 counterexample: two distinct shared-folder profiles with a non-Fabric
loader resolve to one instance directory and to the SAME plain mods directory:
no uuid-derived subdirectory is appended at all, so the claim fails both in its
"appends a subdirectory" part and in its distinctness part. -/
theorem c8_counterexample :
    sharedForgeP1 ≠ sharedForgeP2 ∧
    sharedForgeP1.shouldUseSharedMinecraftFolder = true ∧
    sharedForgeP2.shouldUseSharedMinecraftFolder = true ∧
    calculateInstancePathForProfile plainEnv sharedForgeP1 =
      calculateInstancePathForProfile plainEnv sharedForgeP2 ∧
    getProfileModsPath plainEnv sharedForgeP1 = getProfileModsPath plainEnv sharedForgeP2 ∧
    getProfileModsPath plainEnv sharedForgeP1 =
      calculateInstancePathForProfile plainEnv sharedForgeP1 ++ ["mods"] := by
  refine ⟨by decide, by decide, by decide, by decide, by decide, by decide⟩

/-- C8 (amended): for Fabric-loader, non-standard profiles with the effective
shared flag the mods path appends the subdirectory carrying the short id form
(first two and last two characters of the id with separators stripped), and
profiles sharing one instance directory resolve to distinct mods directories
whenever their short id forms differ; other loaders receive the plain mods
directory, as the counterexample shows. -/
theorem c8_thm (env : PathEnv) (p : Profile)
    (hshared : p.shouldUseSharedMinecraftFolder = true)
    (hstd : p.is_standard_version = false)
    (hfab : p.loader = ModLoader.fabric) :
    getProfileModsPath env p =
      calculateInstancePathForProfile env p ++
        ["mods", "nrc-" ++ p.game_version ++ "-fabric-" ++ uuidShort p.id] ∧
    (4 ≤ (p.id.data.filter (fun c => c ≠ '-')).length →
      uuidShort p.id = String.mk ((p.id.data.filter (fun c => c ≠ '-')).take 2 ++
        (p.id.data.filter (fun c => c ≠ '-')).drop ((p.id.data.filter (fun c => c ≠ '-')).length - 2))) ∧
    (∀ p2 : Profile, p2.shouldUseSharedMinecraftFolder = true →
      p2.is_standard_version = false → p2.loader = ModLoader.fabric →
      calculateInstancePathForProfile env p2 = calculateInstancePathForProfile env p →
      4 ≤ (p.id.data.filter (fun c => c ≠ '-')).length →
      4 ≤ (p2.id.data.filter (fun c => c ≠ '-')).length →
      uuidShort p.id ≠ uuidShort p2.id →
      getProfileModsPath env p ≠ getProfileModsPath env p2) := by
  have main : ∀ q : Profile, q.shouldUseSharedMinecraftFolder = true →
      q.is_standard_version = false → q.loader = ModLoader.fabric →
      getProfileModsPath env q = calculateInstancePathForProfile env q ++
        ["mods", "nrc-" ++ q.game_version ++ "-fabric-" ++ uuidShort q.id] := by
    intro q hq hsq hfq
    unfold getProfileModsPath getProfileModsPathShared
    rw [hq, hsq, hfq]
    rw [if_neg (by decide)]
  refine ⟨main p hshared hstd hfab, ?_, ?_⟩
  · intro h4
    simp only [uuidShort, if_pos h4]
  · intro p2 h1 h2 h3 hinst h4a h4b huneq heq
    rw [main p hshared hstd hfab, main p2 h1 h2 h3, hinst] at heq
    have hs : "nrc-" ++ p.game_version ++ "-fabric-" ++ uuidShort p.id =
        "nrc-" ++ p2.game_version ++ "-fabric-" ++ uuidShort p2.id := by
      have := List.append_cancel_left heq
      simpa using this
    have hdata := congrArg String.data hs
    simp only [String.data_append] at hdata
    have hu := (List.append_inj' hdata
      (by rw [uuidShort_data_length h4a, uuidShort_data_length h4b])).2
    exact huneq (string_eq_of_data_eq hu)

/-- C8 witness: the shared Fabric profile's mods path is the group instance
directory plus the fabric folder carrying the short id form. -/
theorem c8_witness :
    getProfileModsPath plainEnv sharedFabricP =
      calculateInstancePathForProfile plainEnv sharedFabricP ++
        ["mods", "nrc-" ++ sharedFabricP.game_version ++ "-fabric-" ++
          uuidShort sharedFabricP.id] :=
  (c8_thm plainEnv sharedFabricP (by decide) (by decide) (by decide)).1

/-- C7: with two distinct profiles resolving to one instance path, deleting
the first removes its registry entry and flushes while the shared directory
stays on disk; deleting the second as sole owner moves the directory to the
recoverable trash area instead of removing it outright. -/
theorem c7_thm (env : PathEnv) (st : St) (fs : FsWorld) (id1 id2 : String)
    (p1 p2 : Profile) (path : FsPath)
    (h1 : lookupProfile st.profiles id1 = some p1)
    (h2 : lookupProfile st.profiles id2 = some p2)
    (hne : id1 ≠ id2)
    (hp1 : calculateInstancePathForProfile env p1 = path)
    (hp2 : calculateInstancePathForProfile env p2 = path)
    (hdir : path ∈ fs.dirs)
    (hsole : ∀ kp ∈ st.profiles, kp.1 ≠ id1 → kp.1 ≠ id2 →
      calculateInstancePathForProfile env kp.2 ≠ path) :
    ∃ st1 fs1, deleteProfile env st fs id1 = ((st1, fs1), .ok ()) ∧
      lookupProfile st1.profiles id1 = none ∧
      st1.saves = st.saves + 1 ∧ st1.file = st1.profiles ∧
      path ∈ fs1.dirs ∧
      ∃ st2 fs2, deleteProfile env st1 fs1 id2 = ((st2, fs2), .ok ()) ∧
        lookupProfile st2.profiles id2 = none ∧
        path ∉ fs2.dirs ∧ path ∈ fs2.trash := by
  have hshared1 : hasOtherProfileWithSamePath st.profiles id1
      (calculateInstancePathForProfile env p1) (calculateInstancePathForProfile env) = true := by
    refine List.any_eq_true.2 ⟨(id2, p2), lookupProfile_entry_mem h2, ?_⟩
    have : id2 ≠ id1 := fun hc => hne hc.symm
    simp [this, hp1, hp2]
  refine ⟨doSave { st with profiles := removeProfile st.profiles id1 },
    deleteIndividualDirPhase env st.profiles id1 p1
      (deleteMainDirPhase env st.profiles id1 p1 fs), ?_, ?_, rfl, rfl, ?_, ?_⟩
  · simp [deleteProfile, h1]
  · exact lookupProfile_remove_self st.profiles id1
  · rw [deleteMainDirPhase_shared hshared1]
    exact mem_dirs_deleteIndividualDirPhase hdir hp1.symm
  · -- second deletion, from the post-removal state
    have h2' : lookupProfile (removeProfile st.profiles id1) id2 = some p2 := by
      rw [lookupProfile_remove_ne (fun hc => hne hc.symm)]
      exact h2
    have hsole2 : hasOtherProfileWithSamePath (removeProfile st.profiles id1) id2
        (calculateInstancePathForProfile env p2) (calculateInstancePathForProfile env)
        = false := by
      refine List.any_eq_false.2 ?_
      intro kp hkp
      obtain ⟨hmem, hne1⟩ := mem_removeProfile hkp
      by_cases hk2 : kp.1 = id2
      · simp [hk2]
      · have := hsole kp hmem hne1 hk2
        rw [hp2]
        simp only [Bool.and_eq_true, ne_eq, decide_eq_true_eq, beq_iff_eq]
        intro hcontra
        exact this hcontra.2
    have hfs1dir : path ∈ (deleteIndividualDirPhase env st.profiles id1 p1
        (deleteMainDirPhase env st.profiles id1 p1 fs)).dirs := by
      rw [deleteMainDirPhase_shared hshared1]
      exact mem_dirs_deleteIndividualDirPhase hdir hp1.symm
    have hmain2 : deleteMainDirPhase env (removeProfile st.profiles id1) id2 p2
        (deleteIndividualDirPhase env st.profiles id1 p1
          (deleteMainDirPhase env st.profiles id1 p1 fs)) =
        trashDir (deleteIndividualDirPhase env st.profiles id1 p1
          (deleteMainDirPhase env st.profiles id1 p1 fs))
          (calculateInstancePathForProfile env p2) := by
      apply deleteMainDirPhase_sole hsole2
      rw [hp2]
      exact hfs1dir
    refine ⟨doSave { (doSave { st with profiles := removeProfile st.profiles id1 }) with
        profiles := removeProfile (removeProfile st.profiles id1) id2 },
      deleteIndividualDirPhase env (removeProfile st.profiles id1) id2 p2
        (deleteMainDirPhase env (removeProfile st.profiles id1) id2 p2
          (deleteIndividualDirPhase env st.profiles id1 p1
            (deleteMainDirPhase env st.profiles id1 p1 fs))),
      by simp [deleteProfile, doSave, h2'], lookupProfile_remove_self _ _, ?_, ?_⟩
    · -- the directory is gone from the directory set
      intro hcontra
      have := dirs_deleteIndividualDirPhase_subset hcontra
      rw [hmain2] at this
      have := mem_dirs_trashDir.1 this
      rw [hp2] at this
      exact this.2 rfl
    · -- and sits in the trash area
      apply trash_deleteIndividualDirPhase_mono
      rw [hmain2]
      rw [hp2]
      exact mem_trash_trashDir.2 (Or.inl rfl)

/-- C7 witness: two concrete profiles sharing one group directory; the first
deletion leaves the directory, the second moves it to the trash. -/
theorem c7_witness :
    ∃ st1 fs1,
      deleteProfile plainEnv ⟨[("a", sharedForgeP1), ("b", sharedForgeP2)], 0, [], 0⟩
          ⟨[["base", "profiles", "groups", "friends"]], []⟩ "a" =
        ((st1, fs1), .ok ()) ∧
      lookupProfile st1.profiles "a" = none ∧
      st1.saves = 0 + 1 ∧ st1.file = st1.profiles ∧
      ["base", "profiles", "groups", "friends"] ∈ fs1.dirs ∧
      ∃ st2 fs2, deleteProfile plainEnv st1 fs1 "b" = ((st2, fs2), .ok ()) ∧
        lookupProfile st2.profiles "b" = none ∧
        ["base", "profiles", "groups", "friends"] ∉ fs2.dirs ∧
        ["base", "profiles", "groups", "friends"] ∈ fs2.trash :=
  c7_thm plainEnv ⟨[("a", sharedForgeP1), ("b", sharedForgeP2)], 0, [], 0⟩
    ⟨[["base", "profiles", "groups", "friends"]], []⟩ "a" "b" sharedForgeP1 sharedForgeP2
    ["base", "profiles", "groups", "friends"] (by decide) (by decide) (by decide)
    (by decide) (by decide) (by decide) (by decide)

/-- C3 counterexample: when the parent mod's supported-game-version list is
empty, the engine filters against the profile's game version instead of
falling straight through to latest-by-date: on a dependency with an older
1.20.1 build and a newer 1.19-only build it picks the older build, while the
claim's policy — intersection with the parent's (empty) list, else latest —
demands the newer one. -/
theorem c3_counterexample :
    selectDepVersion [depVerOld, depVerNew] none (effectiveTargetGameVersions [] "1.20.1")
      = some depVerOld ∧
    claimSelectionPolicy [depVerOld, depVerNew] none [] = some depVerNew ∧
    depRecArgs ⟨[("D", [depVerOld, depVerNew])]⟩ "fabric"
        (effectiveTargetGameVersions [] "1.20.1") ⟨some "D", none, .required, none⟩
      = some (recArgsOfVersion depVerOld ⟨"d1.jar", "ud1", ⟨none⟩, true⟩) ∧
    depVerOld ≠ depVerNew := by
  refine ⟨by decide, by decide, by decide, by decide⟩

/-- C3 (amended): over the loader-filtered version list and the EFFECTIVE
target list — the parent mod's supported game versions when non-empty,
otherwise the profile's game version — the engine selects (a) the exact
version id named by the dependency when present, else (b) the
most-recently-published version intersecting the target list, else (c) the
most-recently-published version regardless of game version. -/
theorem c3_thm (dep_versions : List ModrinthVersion) (target_version_id : Option String)
    (parent_game_versions : List String) (profile_game_version : String) :
    (∀ t v, target_version_id = some t →
      dep_versions.find? (fun x => x.id == t) = some v →
      selectDepVersion dep_versions target_version_id
        (effectiveTargetGameVersions parent_game_versions profile_game_version) = some v) ∧
    ((∀ t, target_version_id = some t →
        dep_versions.find? (fun x => x.id == t) = none) →
      ((∃ v ∈ dep_versions, gvIntersects v
          (effectiveTargetGameVersions parent_game_versions profile_game_version) = true) →
        ∃ w, selectDepVersion dep_versions target_version_id
            (effectiveTargetGameVersions parent_game_versions profile_game_version) = some w ∧
          w ∈ dep_versions ∧
          gvIntersects w
            (effectiveTargetGameVersions parent_game_versions profile_game_version) = true ∧
          ∀ v ∈ dep_versions,
            gvIntersects v
              (effectiveTargetGameVersions parent_game_versions profile_game_version) = true →
            v.date_published ≤ w.date_published) ∧
      ((∀ v ∈ dep_versions, gvIntersects v
          (effectiveTargetGameVersions parent_game_versions profile_game_version) = false) →
        dep_versions ≠ [] →
        ∃ w, selectDepVersion dep_versions target_version_id
            (effectiveTargetGameVersions parent_game_versions profile_game_version) = some w ∧
          w ∈ dep_versions ∧
          ∀ v ∈ dep_versions, v.date_published ≤ w.date_published)) := by
  constructor
  · intro t v ht hfind
    subst ht
    unfold selectDepVersion
    dsimp only
    rw [hfind]
  · intro hnone
    have hsel : selectDepVersion dep_versions target_version_id
        (effectiveTargetGameVersions parent_game_versions profile_game_version) =
        (match maxByDate (dep_versions.filter (fun dep_v =>
            (effectiveTargetGameVersions parent_game_versions profile_game_version).any
              (fun target_gv => dep_v.game_versions.contains target_gv))) with
        | some v => some v
        | none => maxByDate dep_versions) := by
      unfold selectDepVersion
      dsimp only
      cases htv : target_version_id with
      | none => rfl
      | some t =>
        dsimp only
        rw [hnone t htv]
    constructor
    · rintro ⟨v, hv, hgv⟩
      have hvf : v ∈ dep_versions.filter (fun dep_v =>
          (effectiveTargetGameVersions parent_game_versions profile_game_version).any
            (fun target_gv => dep_v.game_versions.contains target_gv)) :=
        List.mem_filter.2 ⟨hv, by simpa [gvIntersects] using hgv⟩
      obtain ⟨w, hw⟩ := maxByDate_isSome (List.ne_nil_of_mem hvf)
      have hwf := maxByDate_mem hw
      have hwmem := List.mem_filter.1 hwf
      refine ⟨w, ?_, hwmem.1, by simpa [gvIntersects] using hwmem.2, ?_⟩
      · rw [hsel, hw]
      · intro x hx hxgv
        exact maxByDate_ge hw x
          (List.mem_filter.2 ⟨hx, by simpa [gvIntersects] using hxgv⟩)
    · intro hall hne
      have hfe : dep_versions.filter (fun dep_v =>
          (effectiveTargetGameVersions parent_game_versions profile_game_version).any
            (fun target_gv => dep_v.game_versions.contains target_gv)) = [] := by
        rw [List.filter_eq_nil_iff]
        intro a ha
        have := hall a ha
        simpa [gvIntersects] using this
      obtain ⟨w, hw⟩ := maxByDate_isSome hne
      refine ⟨w, ?_, maxByDate_mem hw, maxByDate_ge hw⟩
      rw [hsel, hfe]
      simpa [maxByDate] using hw

/-- C3 witness: with the parent's list non-empty the engine honors an exactly
pinned dependency version present in the filtered list. -/
theorem c3_witness :
    selectDepVersion [depVerOld, depVerNew] (some "d2")
      (effectiveTargetGameVersions ["1.20.1"] "1.20.1") = some depVerNew :=
  (c3_thm [depVerOld, depVerNew] (some "d2") ["1.20.1"] "1.20.1").1 "d2" depVerNew rfl
    (by decide)

set_option maxHeartbeats 8000000 in
/-- C2: the recursive installer returns immediately and without error on a
(project id, version id) pair already in the visited set — the cycle guard —
and on the cyclic two-project catalog (A requires B, B requires A) a single
recursive install of A terminates with both A and B installed exactly once.
Termination for every catalog is witnessed by the installer being defined by
well-founded recursion on the unvisited catalog keys. -/
theorem c2_thm :
    (∀ (reg : ModrinthRegistry) (st : St) (profile_id : String) (a : RecArgs) (ad : Bool)
      (visited : List (String × String)),
      visited.contains (a.project_id, a.version_id) = true →
      addModrinthModInternal reg st profile_id a ad visited = (st, .ok ())) ∧
    ((addModrinthModInternal cycleReg oneProfileSt "p" cycArgsA true []).2 = .ok () ∧
     countProjectMods (addModrinthModInternal cycleReg oneProfileSt "p" cycArgsA true []).1
       "p" "A" = 1 ∧
     countProjectMods (addModrinthModInternal cycleReg oneProfileSt "p" cycArgsA true []).1
       "p" "B" = 1) := by
  constructor
  · intro reg st profile_id a ad visited h
    rw [addModrinthModInternal.eq_def]
    rw [dif_pos h]
  · refine ⟨?_, ?_, ?_⟩ <;>
    · rw [addModrinthModInternal.eq_def]
      simp [cycleReg, oneProfileSt, cycArgsA, emptyFabricProfile, cycVerA, cycVerB,
        cycFileA, cycFileB, recArgsOfVersion, modrinthSourceOfArgs, lookupProfile,
        depRecArgs, getModVersions, lookupProject, selectDepVersion, maxByDate,
        maxByDateAux, getVersionDetails, effectiveTargetGameVersions, newModOfArgs,
        doSave, adjustProfile, countProjectMods, ModLoader.asStr, ModLoader.fromStr,
        strToLower, List.find?, List.contains, List.countP, List.countP.go, List.filter,
        List.flatMap]
      iterate 10
        all_goals (first
          | rfl
          | (rw [processDeps.eq_def]
             try simp [cycleReg, oneProfileSt, cycArgsA, emptyFabricProfile, cycVerA, cycVerB,
        cycFileA, cycFileB, recArgsOfVersion, modrinthSourceOfArgs, lookupProfile,
        depRecArgs, getModVersions, lookupProject, selectDepVersion, maxByDate,
        maxByDateAux, getVersionDetails, effectiveTargetGameVersions, newModOfArgs,
        doSave, adjustProfile, countProjectMods, ModLoader.asStr, ModLoader.fromStr,
        strToLower, List.find?, List.contains, List.countP, List.countP.go, List.filter,
        List.flatMap])
          | (rw [addModrinthModInternal.eq_def]
             try simp [cycleReg, oneProfileSt, cycArgsA, emptyFabricProfile, cycVerA, cycVerB,
        cycFileA, cycFileB, recArgsOfVersion, modrinthSourceOfArgs, lookupProfile,
        depRecArgs, getModVersions, lookupProject, selectDepVersion, maxByDate,
        maxByDateAux, getVersionDetails, effectiveTargetGameVersions, newModOfArgs,
        doSave, adjustProfile, countProjectMods, ModLoader.asStr, ModLoader.fromStr,
        strToLower, List.find?, List.contains, List.countP, List.countP.go, List.filter,
        List.flatMap]))

/-- C2 witness: a request whose key already sits in the visited set returns
the state unchanged with an ok result. -/
theorem c2_witness :
    addModrinthModInternal cycleReg oneProfileSt "p" cycArgsA true [("A", "av")] =
      (oneProfileSt, .ok ()) :=
  c2_thm.1 cycleReg oneProfileSt "p" cycArgsA true [("A", "av")] (by decide)

/-- C1 counterexample: with both v1 and v2 of project P installed (a state
the add operations permit, since the two sources differ), switching the v1
record to version v2 succeeds and leaves two mod records with an identical
`ModSource`: the version-switch update does not preserve the source-dedup
invariant as claimed. -/
theorem c1_counterexample :
    ProfilesInvariant dupSt ∧
    (updateProfileModrinthModVersion emptyReg dupSt "p" 1 dupNewVersion).2 = .ok () ∧
    ¬ ProfilesInvariant (updateProfileModrinthModVersion emptyReg dupSt "p" 1 dupNewVersion).1
    := by
  refine ⟨by decide, by rfl, by decide⟩

/-- C1 (amended): the add operations — `add_mod`, the recursive Modrinth add
with its dependency walk, and `add_mod_from_payload` with its dependency
installers — preserve the per-profile source-dedup invariant unconditionally;
the version-switch updates preserve it only when the switched record is the
profile's unique carrier of its mod id and no other record already carries the
incoming source (without that proviso they can create a duplicate, as the
counterexample shows). -/
theorem c1_thm :
    (∀ (st : St) (profile_id : String) (mod_info : Mod), ProfilesInvariant st →
      ProfilesInvariant (addMod st profile_id mod_info).1) ∧
    (∀ (reg : ModrinthRegistry) (st : St) (profile_id : String) (a : RecArgs) (ad : Bool)
      (visited : List (String × String)), ProfilesInvariant st →
      ProfilesInvariant (addModrinthModInternal reg st profile_id a ad visited).1) ∧
    (∀ (uni : UnifiedEnv) (reg : ModrinthRegistry) (cf : CurseForgeEnv) (st : St)
      (payload : InstallContentPayload) (ad : Bool), ProfilesInvariant st →
      ProfilesInvariant (addModFromPayload uni reg cf st payload ad).1) ∧
    (∀ (reg : ModrinthRegistry) (st : St) (profile_id : String) (mod_id : Nat)
      (nv : ModrinthVersion), ProfilesInvariant st →
      (∀ profile, lookupProfile st.profiles profile_id = some profile →
        profile.mods.countP (fun m => m.id == mod_id) ≤ 1 ∧
        ∀ pf, nv.files.find? (fun f => f.primary) = some pf →
          ∀ m ∈ profile.mods, m.id ≠ mod_id →
            m.source ≠ .modrinth nv.project_id nv.id pf.filename pf.url pf.hashes.sha1) →
      ProfilesInvariant (updateProfileModrinthModVersion reg st profile_id mod_id nv).1) ∧
    (∀ (cf : CurseForgeEnv) (st : St) (profile_id : String) (mod_id : Nat)
      (nv : CurseForgeFile), ProfilesInvariant st →
      (∀ profile, lookupProfile st.profiles profile_id = some profile →
        profile.mods.countP (fun m => m.id == mod_id) ≤ 1 ∧
        ∀ m ∈ profile.mods, m.id ≠ mod_id →
          ∀ sha fp, m.source ≠ .curseForge (toString nv.modId) (toString nv.id)
            nv.fileName nv.downloadUrl sha fp) →
      ProfilesInvariant (updateProfileCurseforgeModVersion cf st profile_id mod_id nv).1) :=
  ⟨fun st pid m h => inv_addMod h,
   fun reg st pid a ad visited h =>
     (addM_processDeps_inv reg (unvisitedCount reg visited) visited (Nat.le_refl _)).1
       st pid a ad h,
   fun uni reg cf st payload ad h => inv_addModFromPayload h,
   fun reg st pid mid nv h hc => inv_updateProfileModrinthModVersion h hc,
   fun cf st pid mid nv h hc => inv_updateProfileCurseforgeModVersion h hc⟩

/-- C1 witness: a concrete `add_mod` run starting from a deduped state keeps
the state deduped. -/
theorem c1_witness : ProfilesInvariant (addMod oneProfileSt "p" localJarMod).1 :=
  c1_thm.1 oneProfileSt "p" localJarMod (by decide)

end JSL
